import Mathlib

/-!
Verification development for the CSS-like styling core of a terminal UI
framework (tokenizer, parser, specificity, selector matching, cascade).

The Rust source is shallowly embedded: pure functions become Lean functions,
`&mut`-style updates become explicit state passing, `Result` becomes `Except`,
machine integers (u8/u16/u32/usize counters) are modelled as `Nat` (no claim
depends on wrap-around), and `f32` numeric values are modelled as `ℚ` (no
claim depends on floating-point rounding).  Raw input text is modelled as
`List Char`; all inputs appearing in the claims are ASCII, so character
positions coincide with the byte offsets the source tracks.  Loops whose
termination is not structural carry a fuel argument initialised large enough
that it is never exhausted on any actual run (each iteration consumes at
least one character or token).
-/

set_option maxHeartbeats 4000000

/-- Model of `css/model.rs` `SelectorComponent`: one simple selector. -/
inductive SelectorComponent where
  | typeSel (name : String)
  | universal
  | classSel (name : String)
  | idSel (name : String)
  | pseudoClass (name : String)
deriving DecidableEq

/-- Model of `css/model.rs` `Combinator`. -/
inductive Combinator where
  | descendant
  | child
deriving DecidableEq

/-- Model of `css/model.rs` `CompoundSelector`. -/
structure CompoundSelector where
  components : List SelectorComponent
deriving DecidableEq

/-- Model of `css/model.rs` `SelectorPart`. -/
inductive SelectorPart where
  | compound (c : CompoundSelector)
  | combinator (c : Combinator)
deriving DecidableEq

/-- Model of `css/model.rs` `Selector`. -/
structure Selector where
  parts : List SelectorPart
deriving DecidableEq

/-- Model of `css/model.rs` `DeclarationValue` (`f32` as `ℚ`). -/
inductive DeclarationValue where
  | ident (s : String)
  | number (n : ℚ)
  | dimension (n : ℚ) (unit : String)
  | color (hex : String)
  | str (s : String)
  | var (name : String)
deriving DecidableEq

/-- Model of `css/model.rs` `Declaration`. -/
structure Declaration where
  property : String
  values : List DeclarationValue
  important : Bool
deriving DecidableEq

/-- Model of `css/model.rs` `RuleSet`. -/
structure RuleSet where
  selectors : List Selector
  declarations : List Declaration
deriving DecidableEq

/-- Model of `css/model.rs` `StyleSheet`. -/
structure StyleSheet where
  rules : List RuleSet
deriving DecidableEq

/-- Model of `css/specificity.rs` `Specificity` (u8/u16/u32 fields as `Nat`). -/
structure Specificity where
  is_user : Nat
  important : Nat
  id_count : Nat
  class_count : Nat
  type_count : Nat
  source_order : Nat
deriving DecidableEq

/-- Model of `Specificity::new` / `Default`: all fields zero. -/
def Specificity.new : Specificity :=
  { is_user := 0, important := 0, id_count := 0, class_count := 0,
    type_count := 0, source_order := 0 }

/-- Model of the derived `Ord` on `Specificity`: lexicographic comparison of
the six fields in declaration order. -/
def Specificity.cmp (a b : Specificity) : Ordering :=
  (compare a.is_user b.is_user).then
    ((compare a.important b.important).then
      ((compare a.id_count b.id_count).then
        ((compare a.class_count b.class_count).then
          ((compare a.type_count b.type_count).then
            (compare a.source_order b.source_order)))))

/-- One step of the component-counting loop inside `Specificity::from_selector`:
accumulator is `(id_count, class_count, type_count)`. -/
def countComponent (acc : Nat × Nat × Nat) (c : SelectorComponent) : Nat × Nat × Nat :=
  match c with
  | .idSel _ => (acc.1 + 1, acc.2.1, acc.2.2)
  | .classSel _ => (acc.1, acc.2.1 + 1, acc.2.2)
  | .pseudoClass _ => (acc.1, acc.2.1 + 1, acc.2.2)
  | .typeSel _ => (acc.1, acc.2.1, acc.2.2 + 1)
  | .universal => acc

/-- The inner loop of `Specificity::from_selector` over one compound's
components. -/
def countComponents (acc : Nat × Nat × Nat) (comps : List SelectorComponent) : Nat × Nat × Nat :=
  comps.foldl countComponent acc

/-- Model of `Specificity::from_selector`. -/
def Specificity.fromSelector (selector : Selector) (source_order : Nat)
    (is_default : Bool) (important : Bool) : Specificity :=
  let counts := selector.parts.foldl (fun acc part =>
    match part with
    | .compound compound => countComponents acc compound.components
    | .combinator _ => acc) ((0, 0, 0) : Nat × Nat × Nat)
  { is_user := if is_default then 0 else 1
    important := if important then 1 else 0
    id_count := counts.1
    class_count := counts.2.1
    type_count := counts.2.2
    source_order := source_order }

/-- Model of `css/scalar.rs` `Unit` (named `ScalarUnit` here because `Unit`
is taken by Lean's core). -/
inductive ScalarUnit where
  | cells
  | fr
  | percent
  | vw
  | vh
  | auto
deriving DecidableEq

/-- Model of `css/scalar.rs` `Scalar` (`f32` value as `ℚ`). -/
structure Scalar where
  value : ℚ
  unit : ScalarUnit
deriving DecidableEq

/-- Model of `Scalar::cells`. -/
def Scalar.cells (v : ℚ) : Scalar := { value := v, unit := .cells }

/-- Model of `Scalar::fr`. -/
def Scalar.fr (v : ℚ) : Scalar := { value := v, unit := .fr }

/-- Model of `Scalar::percent`. -/
def Scalar.percent (v : ℚ) : Scalar := { value := v, unit := .percent }

/-- Model of `Scalar::vw`. -/
def Scalar.vw (v : ℚ) : Scalar := { value := v, unit := .vw }

/-- Model of `Scalar::vh`. -/
def Scalar.vh (v : ℚ) : Scalar := { value := v, unit := .vh }

/-- Model of `Scalar::auto`: value 0, unit Auto. -/
def Scalar.auto : Scalar := { value := 0, unit := .auto }

/-- Model of `css/scalar.rs` `ScalarBox`. -/
structure ScalarBox where
  top : Scalar
  right : Scalar
  bottom : Scalar
  left : Scalar
deriving DecidableEq

/-- Model of `ScalarBox::all`. -/
def ScalarBox.all (v : Scalar) : ScalarBox :=
  { top := v, right := v, bottom := v, left := v }

/-- Model of `ScalarBox::symmetric`. -/
def ScalarBox.symmetric (vertical horizontal : Scalar) : ScalarBox :=
  { top := vertical, right := horizontal, bottom := vertical, left := horizontal }

/-- Model of `css/styles.rs` `TextAlign`. -/
inductive TextAlign where
  | left
  | center
  | right
deriving DecidableEq

/-- Model of `css/styles.rs` `Display`. -/
inductive Display where
  | block
  | none
deriving DecidableEq

/-- Model of `css/styles.rs` `Visibility`. -/
inductive Visibility where
  | visible
  | hidden
deriving DecidableEq

/-- Model of `css/styles.rs` `Overflow`. -/
inductive Overflow where
  | hidden
  | scroll
  | auto
deriving DecidableEq

/-- Model of `css/styles.rs` `LayoutDirection`. -/
inductive LayoutDirection where
  | vertical
  | horizontal
  | grid
deriving DecidableEq

/-- Model of `css/styles.rs` `Dock`. -/
inductive Dock where
  | top
  | right
  | bottom
  | left
deriving DecidableEq

/-- Model of `css/styles.rs` `BorderKind`. -/
inductive BorderKind where
  | none
  | thin
  | heavy
  | double
  | round
  | ascii
deriving DecidableEq

/-- Model of `css/styles.rs` `Border`. -/
structure Border where
  kind : BorderKind
  color : Option String
deriving DecidableEq

/-- Model of `css/styles.rs` `TextStyleFlags`. -/
structure TextStyleFlags where
  bold : Option Bool := none
  dim : Option Bool := none
  italic : Option Bool := none
  underline : Option Bool := none
  strikethrough : Option Bool := none
  reverse : Option Bool := none
deriving DecidableEq

/-- Model of `TextStyleFlags::default`. -/
def TextStyleFlags.default : TextStyleFlags := {}

/-- Model of `css/styles.rs` `Styles`: one `Option` field per property. -/
structure Styles where
  display : Option Display := none
  visibility : Option Visibility := none
  layout : Option LayoutDirection := none
  dock : Option Dock := none
  overflow_x : Option Overflow := none
  overflow_y : Option Overflow := none
  width : Option Scalar := none
  height : Option Scalar := none
  min_width : Option Scalar := none
  min_height : Option Scalar := none
  max_width : Option Scalar := none
  max_height : Option Scalar := none
  margin : Option ScalarBox := none
  padding : Option ScalarBox := none
  color : Option String := none
  background : Option String := none
  text_align : Option TextAlign := none
  text_style : Option TextStyleFlags := none
  border : Option Border := none
deriving DecidableEq

/-- Model of `Styles::new`: every field unset. -/
def Styles.new : Styles := {}

/-- Model of the `merge_opt` helper inside `Styles::merge`: keep `other`
when it is set, otherwise keep `base`. -/
def mergeOpt {α : Type} (base other : Option α) : Option α :=
  match other with
  | some v => some v
  | none => base

/-- Model of `Styles::merge`: field-wise, `other` wins for set fields. -/
def Styles.merge (self other : Styles) : Styles :=
  { display := mergeOpt self.display other.display
    visibility := mergeOpt self.visibility other.visibility
    layout := mergeOpt self.layout other.layout
    dock := mergeOpt self.dock other.dock
    overflow_x := mergeOpt self.overflow_x other.overflow_x
    overflow_y := mergeOpt self.overflow_y other.overflow_y
    width := mergeOpt self.width other.width
    height := mergeOpt self.height other.height
    min_width := mergeOpt self.min_width other.min_width
    min_height := mergeOpt self.min_height other.min_height
    max_width := mergeOpt self.max_width other.max_width
    max_height := mergeOpt self.max_height other.max_height
    margin := mergeOpt self.margin other.margin
    padding := mergeOpt self.padding other.padding
    color := mergeOpt self.color other.color
    background := mergeOpt self.background other.background
    text_align := mergeOpt self.text_align other.text_align
    text_style := mergeOpt self.text_style other.text_style
    border := mergeOpt self.border other.border }

/-- Model of `css/properties.rs` `PropertyError`. -/
inductive PropertyError where
  | unknownProperty (name : String)
  | invalidValue (property : String) (message : String)
deriving DecidableEq

/-- Model of `char::to_ascii_lowercase` as used by `eq_ignore_ascii_case`. -/
def asciiLower (c : Char) : Char :=
  if 'A' ≤ c ∧ c ≤ 'Z' then Char.ofNat (c.toNat + 32) else c

/-- Model of `str::eq_ignore_ascii_case`. -/
def eqIgnoreAsciiCase (a b : String) : Bool :=
  a.toList.map asciiLower == b.toList.map asciiLower

/-- Model of `properties.rs` `parse_scalar`. -/
def parseScalar (value : DeclarationValue) : Except PropertyError Scalar :=
  match value with
  | .number n => .ok (Scalar.cells n)
  | .dimension n unit =>
    if unit = "fr" then .ok (Scalar.fr n)
    else if unit = "%" then .ok (Scalar.percent n)
    else if unit = "vw" then .ok (Scalar.vw n)
    else if unit = "vh" then .ok (Scalar.vh n)
    else .error (.invalidValue "scalar" "unknown unit")
  | .ident name =>
    if eqIgnoreAsciiCase name "auto" then .ok Scalar.auto
    else .error (.invalidValue "scalar" "expected number, dimension, or auto")
  | _ => .error (.invalidValue "scalar" "expected number, dimension, or auto")

/-- Model of `properties.rs` `parse_scalar_box` (1/2/3/4-value shorthand). -/
def parseScalarBox (values : List DeclarationValue) : Except PropertyError ScalarBox :=
  match values with
  | [a] => do
    let v ← parseScalar a
    pure (ScalarBox.all v)
  | [a, b] => do
    let vertical ← parseScalar a
    let horizontal ← parseScalar b
    pure (ScalarBox.symmetric vertical horizontal)
  | [a, b, c] => do
    let top ← parseScalar a
    let horizontal ← parseScalar b
    let bottom ← parseScalar c
    pure { top := top, right := horizontal, bottom := bottom, left := horizontal }
  | [a, b, c, d] => do
    let top ← parseScalar a
    let right ← parseScalar b
    let bottom ← parseScalar c
    let left ← parseScalar d
    pure { top := top, right := right, bottom := bottom, left := left }
  | _ => .error (.invalidValue "margin/padding" "expected 1-4 values")

/-- Model of `properties.rs` `require_single_ident`. -/
def requireSingleIdent (values : List DeclarationValue) (property : String) :
    Except PropertyError String :=
  match values with
  | [.ident name] => .ok name
  | [_] => .error (.invalidValue property "expected identifier")
  | _ => .error (.invalidValue property "expected 1 value")

/-- Model of `properties.rs` `require_color_value`. -/
def requireColorValue (values : List DeclarationValue) (property : String) :
    Except PropertyError String :=
  match values with
  | [.ident name] => .ok name
  | [.color hex] => .ok ("#" ++ hex)
  | [_] => .error (.invalidValue property "expected color name or hex color")
  | _ => .error (.invalidValue property "expected 1 color value")

/-- Model of `properties.rs` `parse_overflow`. -/
def parseOverflow (name : String) (property : String) : Except PropertyError Overflow :=
  if name = "hidden" then .ok .hidden
  else if name = "scroll" then .ok .scroll
  else if name = "auto" then .ok .auto
  else .error (.invalidValue property "expected hidden|scroll|auto")

/-- Model of `properties.rs` `parse_border`. -/
def parseBorder (values : List DeclarationValue) : Except PropertyError Border :=
  match values with
  | [] => .error (.invalidValue "border" "expected at least 1 value for border")
  | first :: rest => do
    let kindStr ← match first with
      | .ident name => pure name
      | _ => Except.error (PropertyError.invalidValue "border" "expected border kind identifier")
    let kind ←
      if kindStr = "none" then pure BorderKind.none
      else if kindStr = "thin" then pure BorderKind.thin
      else if kindStr = "heavy" then pure BorderKind.heavy
      else if kindStr = "double" then pure BorderKind.double
      else if kindStr = "round" then pure BorderKind.round
      else if kindStr = "ascii" then pure BorderKind.ascii
      else Except.error (PropertyError.invalidValue "border" "unknown border kind")
    let color ← match rest with
      | [] => pure (Option.none : Option String)
      | second :: _ =>
        match second with
        | .ident name => pure (some name)
        | .color hex => pure (some ("#" ++ hex))
        | _ => Except.error (PropertyError.invalidValue "border" "expected color for border")
    pure { kind := kind, color := color }

/-- Model of the loop body of `properties.rs` `parse_text_style`. -/
def parseTextStyleGo (flags : TextStyleFlags) :
    List DeclarationValue → Except PropertyError TextStyleFlags
  | [] => .ok flags
  | value :: rest =>
    match value with
    | .ident name =>
      if name = "bold" then parseTextStyleGo { flags with bold := some true } rest
      else if name = "dim" then parseTextStyleGo { flags with dim := some true } rest
      else if name = "italic" then parseTextStyleGo { flags with italic := some true } rest
      else if name = "underline" then parseTextStyleGo { flags with underline := some true } rest
      else if name = "strikethrough" then
        parseTextStyleGo { flags with strikethrough := some true } rest
      else if name = "reverse" then parseTextStyleGo { flags with reverse := some true } rest
      else if name = "none" then
        parseTextStyleGo
          { bold := some false, dim := some false, italic := some false,
            underline := some false, strikethrough := some false, reverse := some false } rest
      else .error (.invalidValue "text-style" "unknown text style")
    | _ => .error (.invalidValue "text-style" "expected text style identifier")

/-- Model of `properties.rs` `parse_text_style`. -/
def parseTextStyle (values : List DeclarationValue) : Except PropertyError TextStyleFlags :=
  parseTextStyleGo TextStyleFlags.default values

/-- Model of `properties.rs` `apply_declaration`.  The source mutates a
`&mut Styles` but every branch performs all fallible work before assigning,
so it is embedded as a pure function returning the updated record. -/
def applyDeclaration (styles : Styles) (property : String)
    (values : List DeclarationValue) : Except PropertyError Styles :=
  if property = "display" then do
    let name ← requireSingleIdent values "display"
    if name = "block" then pure { styles with display := some .block }
    else if name = "none" then pure { styles with display := some .none }
    else Except.error (PropertyError.invalidValue "display" "expected block|none")
  else if property = "visibility" then do
    let name ← requireSingleIdent values "visibility"
    if name = "visible" then pure { styles with visibility := some .visible }
    else if name = "hidden" then pure { styles with visibility := some .hidden }
    else Except.error (PropertyError.invalidValue "visibility" "expected visible|hidden")
  else if property = "layout" then do
    let name ← requireSingleIdent values "layout"
    if name = "vertical" then pure { styles with layout := some .vertical }
    else if name = "horizontal" then pure { styles with layout := some .horizontal }
    else if name = "grid" then pure { styles with layout := some .grid }
    else Except.error (PropertyError.invalidValue "layout" "expected vertical|horizontal|grid")
  else if property = "dock" then do
    let name ← requireSingleIdent values "dock"
    if name = "top" then pure { styles with dock := some .top }
    else if name = "right" then pure { styles with dock := some .right }
    else if name = "bottom" then pure { styles with dock := some .bottom }
    else if name = "left" then pure { styles with dock := some .left }
    else Except.error (PropertyError.invalidValue "dock" "expected top|right|bottom|left")
  else if property = "overflow" then do
    let name ← requireSingleIdent values "overflow"
    let overflow ← parseOverflow name "overflow"
    pure { styles with overflow_x := some overflow, overflow_y := some overflow }
  else if property = "overflow-x" then do
    let name ← requireSingleIdent values "overflow-x"
    let overflow ← parseOverflow name "overflow-x"
    pure { styles with overflow_x := some overflow }
  else if property = "overflow-y" then do
    let name ← requireSingleIdent values "overflow-y"
    let overflow ← parseOverflow name "overflow-y"
    pure { styles with overflow_y := some overflow }
  else if property = "width" then
    match values with
    | [v] => do
      let s ← parseScalar v
      pure { styles with width := some s }
    | _ => .error (.invalidValue "width" "expected 1 value")
  else if property = "height" then
    match values with
    | [v] => do
      let s ← parseScalar v
      pure { styles with height := some s }
    | _ => .error (.invalidValue "height" "expected 1 value")
  else if property = "min-width" then
    match values with
    | [v] => do
      let s ← parseScalar v
      pure { styles with min_width := some s }
    | _ => .error (.invalidValue "min-width" "expected 1 value")
  else if property = "min-height" then
    match values with
    | [v] => do
      let s ← parseScalar v
      pure { styles with min_height := some s }
    | _ => .error (.invalidValue "min-height" "expected 1 value")
  else if property = "max-width" then
    match values with
    | [v] => do
      let s ← parseScalar v
      pure { styles with max_width := some s }
    | _ => .error (.invalidValue "max-width" "expected 1 value")
  else if property = "max-height" then
    match values with
    | [v] => do
      let s ← parseScalar v
      pure { styles with max_height := some s }
    | _ => .error (.invalidValue "max-height" "expected 1 value")
  else if property = "margin" then do
    let b ← parseScalarBox values
    pure { styles with margin := some b }
  else if property = "padding" then do
    let b ← parseScalarBox values
    pure { styles with padding := some b }
  else if property = "color" then do
    let c ← requireColorValue values "color"
    pure { styles with color := some c }
  else if property = "background" then do
    let c ← requireColorValue values "background"
    pure { styles with background := some c }
  else if property = "text-align" then do
    let name ← requireSingleIdent values "text-align"
    if name = "left" then pure { styles with text_align := some .left }
    else if name = "center" then pure { styles with text_align := some .center }
    else if name = "right" then pure { styles with text_align := some .right }
    else Except.error (PropertyError.invalidValue "text-align" "expected left|center|right")
  else if property = "text-style" then do
    let flags ← parseTextStyle values
    pure { styles with text_style := some flags }
  else if property = "border" then do
    let b ← parseBorder values
    pure { styles with border := some b }
  else .error (.unknownProperty property)

/-- Model of `dom/node.rs` `NodeData`. -/
structure NodeData where
  widget_type : String
  id : Option String
  classes : List String
  visible : Bool
  focusable : Bool
  disabled : Bool
deriving DecidableEq

/-- Model of `NodeData::new`. -/
def NodeData.new (widget_type : String) : NodeData :=
  { widget_type := widget_type, id := none, classes := [], visible := true,
    focusable := false, disabled := false }

/-- Model of `NodeData::has_class`. -/
def NodeData.hasClass (nd : NodeData) (c : String) : Bool :=
  nd.classes.any (fun x => x == c)

/-- Model of `dom/tree.rs` `Dom` restricted to what the CSS core reads:
node data by id and the parent map.  `NodeId` is modelled as the node's
index in `nodes`; `parents.get? i = some (some p)` means node `i` has
parent `p`. -/
structure Dom where
  nodes : List NodeData
  parents : List (Option Nat)
deriving DecidableEq

/-- Model of `Dom::get`. -/
def Dom.get (dom : Dom) (id : Nat) : Option NodeData := dom.nodes.get? id

/-- Model of `Dom::parent`. -/
def Dom.parent (dom : Dom) (id : Nat) : Option Nat :=
  match dom.parents.get? id with
  | some o => o
  | none => none

/-- Fuelled walk up the parent chain (the source's `Dom::ancestors` loop).
In the source the walk runs until a node has no parent; a fuel argument
makes it structural.  A chain in an acyclic parent map never revisits a
node, so `parents.length` fuel is never exhausted on trees. -/
def Dom.ancestorsAux (dom : Dom) : Nat → Nat → List Nat
  | 0, _ => []
  | fuel + 1, id =>
    match dom.parent id with
    | none => []
    | some p => p :: dom.ancestorsAux fuel p

/-- Model of `Dom::ancestors`: parent chain from nearest to farthest,
excluding the node itself. -/
def Dom.ancestors (dom : Dom) (id : Nat) : List Nat :=
  dom.ancestorsAux dom.parents.length id

/-- One component test inside `stylesheet.rs` `matches_compound`. -/
def matchesComponent (node : NodeData) (component : SelectorComponent) : Bool :=
  match component with
  | .typeSel name => node.widget_type == name
  | .classSel name => node.hasClass name
  | .idSel name => node.id == some name
  | .universal => true
  | .pseudoClass _ => false

/-- Model of `stylesheet.rs` `matches_compound`: every component must match. -/
def matchesCompound (compound : CompoundSelector) (node : NodeData) : Bool :=
  compound.components.all (matchesComponent node)

/-- The leftward combinator/compound walk inside `matches_selector`.
`partIdx` points at the part whose compound was last matched; the source
loop at `partIdx = j + 2` reads the combinator at `j + 1` and the compound
at `j`, then continues at `j`.  `partIdx = 1` mirrors the source returning
false both for a non-combinator at index 0 and for a combinator with no
preceding compound. -/
def matchLoop (dom : Dom) (parts : List SelectorPart) : Nat → Nat → Bool
  | 0, _ => true
  | 1, _ => false
  | j + 2, current =>
    match parts.get? (j + 1) with
    | some (.combinator c) =>
      match parts.get? j with
      | some (.compound compound) =>
        match c with
        | .child =>
          match dom.parent current with
          | none => false
          | some parentId =>
            match dom.get parentId with
            | none => false
            | some parentData =>
              if matchesCompound compound parentData then matchLoop dom parts j parentId
              else false
        | .descendant =>
          match (dom.ancestors current).find? (fun ancestorId =>
              match dom.get ancestorId with
              | some ancestor => matchesCompound compound ancestor
              | none => false) with
          | some ancestorId => matchLoop dom parts j ancestorId
          | none => false
      | _ => false
    | _ => false

/-- Model of `stylesheet.rs` `matches_selector`. -/
def matchesSelector (selector : Selector) (nodeId : Nat) (dom : Dom) : Bool :=
  let parts := selector.parts
  if parts.isEmpty then false
  else
    match parts.get? (parts.length - 1) with
    | some (.compound compound) =>
      match dom.get nodeId with
      | none => false
      | some node =>
        if matchesCompound compound node then matchLoop dom parts (parts.length - 1) nodeId
        else false
    | _ => false

/-- Model of `stylesheet.rs` `CompiledRule`. -/
structure CompiledRule where
  rule : RuleSet
  specificity : Specificity
  source_order : Nat
deriving DecidableEq

/-- Model of `stylesheet.rs` `CompiledStylesheet`. -/
structure CompiledStylesheet where
  rules : List CompiledRule
deriving DecidableEq

/-- One fold step of Rust's `Iterator::max`: keep the accumulated maximum
only when the new element is strictly smaller, so among equal maxima the
last one wins. -/
def specMaxStep (acc : Option Specificity) (s : Specificity) : Option Specificity :=
  match acc with
  | none => some s
  | some m => if Specificity.cmp s m = Ordering.lt then some m else some s

/-- Model of Rust's `Iterator::max` by `Specificity`'s `Ord`: `none` on an
empty list, and among equal maxima the last one wins. -/
def specMax (l : List Specificity) : Option Specificity :=
  l.foldl specMaxStep none

/-- Model of `CompiledStylesheet::compile`. -/
def CompiledStylesheet.compile (stylesheet : StyleSheet) (is_default : Bool) :
    CompiledStylesheet :=
  { rules := stylesheet.rules.enum.map (fun entry =>
      let i := entry.1
      let rule := entry.2
      let has_important := rule.declarations.any (fun d => d.important)
      let specificity := (specMax (rule.selectors.map (fun sel =>
        Specificity.fromSelector sel i is_default has_important))).getD Specificity.new
      { rule := rule, specificity := specificity, source_order := i }) }

/-- The per-rule scratch `Styles` built inside `compute_styles`: apply each
declaration, silently ignoring failing ones. -/
def ruleStyles (declarations : List Declaration) : Styles :=
  declarations.foldl (fun s d =>
    match applyDeclaration s d.property d.values with
    | .ok s' => s'
    | .error _ => s) Styles.new

/-- The sort comparator of `compute_styles`:
`a.0.cmp(&b.0).then(a.1.cmp(&b.1))` on `(Specificity, source_order)`. -/
def candCmp (a b : Specificity × Nat × List Declaration) : Ordering :=
  (Specificity.cmp a.1 b.1).then (compare a.2.1 b.2.1)

/-- Non-strict order induced by `candCmp`, used for the stable sort. -/
def candLe (a b : Specificity × Nat × List Declaration) : Prop :=
  candCmp a b ≠ Ordering.gt

instance : DecidableRel candLe := fun a b =>
  inferInstanceAs (Decidable (candCmp a b ≠ Ordering.gt))

/-- The candidate collection loop of `compute_styles`: every compiled rule
any of whose selectors matches the node, as `(specificity, source_order,
declarations)`, in rule order. -/
def CompiledStylesheet.candidates (self : CompiledStylesheet) (nodeId : Nat)
    (dom : Dom) : List (Specificity × Nat × List Declaration) :=
  (self.rules.filter (fun cr =>
    cr.rule.selectors.any (fun sel => matchesSelector sel nodeId dom))).map
    (fun cr => (cr.specificity, cr.source_order, cr.rule.declarations))

/-- Model of `CompiledStylesheet::compute_styles`: collect matching rules,
stable-sort ascending by `(specificity, source_order)` (Rust's `sort_by` is
a stable ascending sort, modelled by `List.insertionSort`, which is also
stable), then fold the per-rule scratch styles into an accumulator with a
right-biased merge. -/
def CompiledStylesheet.computeStyles (self : CompiledStylesheet) (nodeId : Nat)
    (dom : Dom) : Styles :=
  let sorted := List.insertionSort candLe (self.candidates nodeId dom)
  sorted.foldl (fun result c => result.merge (ruleStyles c.2.2)) Styles.new

/-- The inner scan of `parser.rs` `strip_comments`: skip to just past the
first `*/`, or to the end of input if there is none. -/
def dropToCommentEnd : List Char → List Char
  | [] => []
  | [_] => []
  | a :: b :: rest => if a = '*' ∧ b = '/' then rest else dropToCommentEnd (b :: rest)

/-- Fuelled body of `parser.rs` `strip_comments`; fuel bounds the number of
steps and each step consumes at least one character, so `input.length` fuel
is never exhausted. -/
def stripCommentsAux : Nat → List Char → List Char
  | 0, _ => []
  | _, [] => []
  | _ + 1, [b] => [b]
  | fuel + 1, b1 :: b2 :: rest =>
    if b1 = '/' ∧ b2 = '*' then ' ' :: stripCommentsAux fuel (dropToCommentEnd rest)
    else b1 :: stripCommentsAux fuel (b2 :: rest)

/-- Model of `parser.rs` `strip_comments`: each `/* ... */` block comment
(or unterminated `/*`) becomes a single space. -/
def stripComments (input : List Char) : List Char :=
  stripCommentsAux input.length input

/-- Whitespace characters: the logos skip pattern of `css/tokenizer.rs`. -/
def isWsChar (c : Char) : Bool :=
  c = ' ' || c = Char.ofNat 9 || c = Char.ofNat 10 || c = Char.ofNat 13 || c = Char.ofNat 12

/-- ASCII decimal digit. -/
def isDigitChar (c : Char) : Bool := '0' ≤ c && c ≤ '9'

/-- ASCII letter. -/
def isAlphaChar (c : Char) : Bool := ('a' ≤ c && c ≤ 'z') || ('A' ≤ c && c ≤ 'Z')

/-- ASCII hex digit. -/
def isHexChar (c : Char) : Bool :=
  isDigitChar c || ('a' ≤ c && c ≤ 'f') || ('A' ≤ c && c ≤ 'F')

/-- Continuation character of identifiers, pseudo-classes and variables:
the character class of the regexes in `css/tokenizer.rs`. -/
def isIdentContChar (c : Char) : Bool :=
  isAlphaChar c || isDigitChar c || c = '_' || c = '-'

/-- Length of the longest prefix whose characters satisfy `p`. -/
def countLeading (p : Char → Bool) : List Char → Nat
  | [] => 0
  | c :: rest => if p c then countLeading p rest + 1 else 0

/-- Model of `css/tokenizer.rs` `Token` kinds (the `Variable` kind is named
`var` because `variable` is a Lean keyword). -/
inductive Token where
  | important
  | hexColor
  | dimension
  | pseudoClass
  | stringLiteral
  | stringLiteralSingle
  | var
  | number
  | ident
  | braceOpen
  | braceClose
  | colon
  | semicolon
  | comma
  | dot
  | hash
  | star
  | greaterThan
deriving DecidableEq

/-- Match length of the literal `!important` token at the head of input. -/
def matchImportant (cs : List Char) : Option Nat :=
  if List.isPrefixOf "!important".toList cs then some 10 else none

/-- Match length of the HexColor regex: a hash then 3 to 8 hex digits,
longest match first (so 10 digits yield an 8-digit match). -/
def matchHexColor : List Char → Option Nat
  | '#' :: rest =>
    let n := countLeading isHexChar rest
    if 3 ≤ n then some (1 + min n 8) else none
  | _ => none

/-- Match length of a unit suffix `fr`, `vw`, `vh` or `%`. -/
def matchUnit (cs : List Char) : Option Nat :=
  if List.isPrefixOf "fr".toList cs then some 2
  else if List.isPrefixOf "vw".toList cs then some 2
  else if List.isPrefixOf "vh".toList cs then some 2
  else if List.isPrefixOf "%".toList cs then some 1
  else none

/-- Match length of the Number regex: optional minus, digits, optional
fractional part. -/
def matchNumber (cs : List Char) : Option Nat :=
  let p := match cs with
    | '-' :: rest => ((1 : Nat), rest)
    | _ => (0, cs)
  let d1 := countLeading isDigitChar p.2
  if d1 = 0 then none
  else
    let cs2 := p.2.drop d1
    let fracLen := match cs2 with
      | '.' :: rest =>
        let d2 := countLeading isDigitChar rest
        if d2 = 0 then 0 else 1 + d2
      | _ => 0
    some (p.1 + d1 + fracLen)

/-- Match length of the Dimension regex: a Number immediately followed by a
unit suffix. -/
def matchDimension (cs : List Char) : Option Nat :=
  match matchNumber cs with
  | none => none
  | some numLen =>
    match matchUnit (cs.drop numLen) with
    | some unitLen => some (numLen + unitLen)
    | none => none

/-- Match length of the PseudoClass regex: colon, letter, then identifier
continuation characters. -/
def matchPseudoClass : List Char → Option Nat
  | ':' :: c :: rest =>
    if isAlphaChar c then some (2 + countLeading isIdentContChar rest) else none
  | _ => none

/-- Match length of a quoted string literal with quote character `q`:
a quote, a run of non-quote characters, and a closing quote. -/
def matchStringLit (q : Char) : List Char → Option Nat
  | c :: rest =>
    if c = q then
      let n := countLeading (fun x => !(x = q)) rest
      match rest.drop n with
      | c2 :: _ => if c2 = q then some (n + 2) else none
      | [] => none
    else none
  | [] => none

/-- Match length of the Variable regex: dollar, letter or underscore, then
identifier continuation characters. -/
def matchVariable : List Char → Option Nat
  | '$' :: c :: rest =>
    if isAlphaChar c || c = '_' then some (2 + countLeading isIdentContChar rest) else none
  | _ => none

/-- Match length of the Ident regex: letter or underscore, then identifier
continuation characters. -/
def matchIdent : List Char → Option Nat
  | c :: rest =>
    if isAlphaChar c || c = '_' then some (1 + countLeading isIdentContChar rest) else none
  | [] => none

/-- Match length of a single-character token. -/
def matchChar (ch : Char) : List Char → Option Nat
  | c :: _ => if c = ch then some 1 else none
  | [] => none

/-- Fold of logos's disambiguation rule over the candidate matches: the
longest match wins, and among equal lengths the earlier-declared kind wins. -/
def pickBest (l : List (Token × Option Nat)) : Option (Token × Nat) :=
  l.foldl (fun best entry =>
    match entry.2 with
    | none => best
    | some n =>
      match best with
      | none => some (entry.1, n)
      | some (_, bn) => if bn < n then some (entry.1, n) else best) none

/-- The token (and its length) recognised at the head of the input, using
the declaration order of `css/tokenizer.rs` for tie-breaking. -/
def tokenAt (cs : List Char) : Option (Token × Nat) :=
  pickBest
    [(Token.important, matchImportant cs),
     (Token.hexColor, matchHexColor cs),
     (Token.dimension, matchDimension cs),
     (Token.pseudoClass, matchPseudoClass cs),
     (Token.stringLiteral, matchStringLit (Char.ofNat 34) cs),
     (Token.stringLiteralSingle, matchStringLit (Char.ofNat 39) cs),
     (Token.var, matchVariable cs),
     (Token.number, matchNumber cs),
     (Token.ident, matchIdent cs),
     (Token.braceOpen, matchChar (Char.ofNat 123) cs),
     (Token.braceClose, matchChar (Char.ofNat 125) cs),
     (Token.colon, matchChar ':' cs),
     (Token.semicolon, matchChar ';' cs),
     (Token.comma, matchChar ',' cs),
     (Token.dot, matchChar '.' cs),
     (Token.hash, matchChar '#' cs),
     (Token.star, matchChar '*' cs),
     (Token.greaterThan, matchChar '>' cs)]

/-- Model of `parser.rs` `PToken`: a token with its source text, stream
index, and byte span. -/
structure PToken where
  token : Token
  text : List Char
  pos : Nat
  byte_start : Nat
  byte_end : Nat
deriving DecidableEq

/-- Fuelled body of `parser.rs` `tokenize_with_spans`: skip whitespace,
emit the recognised token with its span, silently drop characters that
match no pattern (logos error tokens are filtered out). -/
def tokenizeAux : Nat → List Char → Nat → Nat → List PToken
  | 0, _, _, _ => []
  | _, [], _, _ => []
  | fuel + 1, c :: rest, offset, idx =>
    if isWsChar c then tokenizeAux fuel rest (offset + 1) idx
    else
      match tokenAt (c :: rest) with
      | some (tok, n) =>
        { token := tok, text := (c :: rest).take n, pos := idx,
          byte_start := offset, byte_end := offset + n }
          :: tokenizeAux fuel ((c :: rest).drop n) (offset + n) (idx + 1)
      | none => tokenizeAux fuel rest (offset + 1) idx

/-- Model of `parser.rs` `tokenize_with_spans`. -/
def tokenizeWithSpans (input : List Char) : List PToken :=
  tokenizeAux input.length input 0 0

/-- Model of `parser.rs` `ParseError`. -/
inductive ParseError where
  | unexpectedToken (position : Nat) (message : String)
  | unexpectedEof (message : String)
deriving DecidableEq

/-- Model of the `Parser` state: the token stream and a cursor. -/
structure Parser where
  tokens : List PToken
  cursor : Nat
deriving DecidableEq

/-- Model of `Parser::is_eof`. -/
def Parser.isEof (p : Parser) : Bool := decide (p.tokens.length ≤ p.cursor)

/-- Model of `Parser::peek`. -/
def Parser.peek (p : Parser) : Option PToken := p.tokens.get? p.cursor

/-- The cursor advance shared by `Parser::advance` paths that have already
peeked successfully. -/
def Parser.bump (p : Parser) : Parser := { p with cursor := p.cursor + 1 }

/-- Model of `Parser::advance`: the token under the cursor plus the state
with the cursor moved past it. -/
def Parser.advance (p : Parser) : Option (PToken × Parser) :=
  match p.tokens.get? p.cursor with
  | some t => some (t, p.bump)
  | none => none

/-- Model of `Parser::current_pos`. -/
def Parser.currentPos (p : Parser) : Nat :=
  match p.peek with
  | some t => t.pos
  | none => p.tokens.length

/-- Model of `Parser::expect`. -/
def Parser.expect (p : Parser) (expected : Token) : Except ParseError (PToken × Parser) :=
  match p.advance with
  | some (tok, p') =>
    if tok.token = expected then .ok (tok, p')
    else .error (.unexpectedToken tok.pos "unexpected token")
  | none => .error (.unexpectedEof "expected token")

/-- Model of `Parser::is_adjacent`: the current token starts exactly where
the previous token ended. -/
def Parser.isAdjacent (p : Parser) : Bool :=
  if p.cursor = 0 then false
  else
    match p.tokens.get? (p.cursor - 1), p.tokens.get? p.cursor with
    | some prev, some curr => curr.byte_start == prev.byte_end
    | _, _ => false

/-- The dot/hash paths of `parse_compound_selector`: consume the punctuation
token, then require an adjacent-in-stream Ident token as the name. -/
def parseNameAfter (p : Parser) (mk : String → SelectorComponent) :
    Except ParseError (SelectorComponent × Parser) :=
  match p.bump.advance with
  | none => .error (.unexpectedEof "expected name")
  | some (nameTok, p2) =>
    if nameTok.token = Token.ident then .ok (mk (String.mk nameTok.text), p2)
    else .error (.unexpectedToken nameTok.pos "expected name")

/-- The first-component match of `parse_compound_selector`. -/
def parseCompoundFirst (p : Parser) : Except ParseError (SelectorComponent × Parser) :=
  match p.peek with
  | some t =>
    match t.token with
    | .ident => .ok (.typeSel (String.mk t.text), p.bump)
    | .star => .ok (.universal, p.bump)
    | .dot => parseNameAfter p SelectorComponent.classSel
    | .hash => parseNameAfter p SelectorComponent.idSel
    | .pseudoClass => .ok (.pseudoClass (String.mk (t.text.drop 1)), p.bump)
    | _ => .error (.unexpectedToken p.currentPos "expected selector part")
  | none => .error (.unexpectedToken p.currentPos "expected selector part")

/-- The byte-adjacency tail loop of `parse_compound_selector`: keep
appending Class/Id/PseudoClass components while the next token is
byte-adjacent; any other or non-adjacent token ends the compound. -/
def parseCompoundTail : Nat → List SelectorComponent → Parser →
    Except ParseError (List SelectorComponent × Parser)
  | 0, _, _ => .error (.unexpectedEof "fuel exhausted")
  | fuel + 1, comps, p =>
    if !p.isAdjacent then .ok (comps, p)
    else
      match p.peek with
      | some t =>
        match t.token with
        | .dot =>
          match parseNameAfter p SelectorComponent.classSel with
          | .ok (c, p') => parseCompoundTail fuel (comps ++ [c]) p'
          | .error e => .error e
        | .hash =>
          match parseNameAfter p SelectorComponent.idSel with
          | .ok (c, p') => parseCompoundTail fuel (comps ++ [c]) p'
          | .error e => .error e
        | .pseudoClass =>
          parseCompoundTail fuel (comps ++ [.pseudoClass (String.mk (t.text.drop 1))]) p.bump
        | _ => .ok (comps, p)
      | none => .ok (comps, p)

/-- Model of `Parser::parse_compound_selector`. -/
def parseCompoundSelector (p : Parser) : Except ParseError (CompoundSelector × Parser) :=
  match parseCompoundFirst p with
  | .error e => .error e
  | .ok (first, p1) =>
    match parseCompoundTail (p1.tokens.length + 1) [first] p1 with
    | .error e => .error e
    | .ok (comps, p2) =>
      if comps.isEmpty then .error (.unexpectedToken p2.currentPos "expected selector part")
      else .ok ({ components := comps }, p2)

/-- The combinator/compound loop of `Parser::parse_selector`: an explicit
`>` becomes a Child combinator; any other selector-starting token kind
(Ident, Hash, Dot, Star, PseudoClass) gets an implicit Descendant
combinator; anything else ends the selector. -/
def parseSelectorLoop : Nat → List SelectorPart → Parser →
    Except ParseError (List SelectorPart × Parser)
  | 0, _, _ => .error (.unexpectedEof "fuel exhausted")
  | fuel + 1, parts, p =>
    match p.peek with
    | some t =>
      if t.token = Token.greaterThan then
        match parseCompoundSelector p.bump with
        | .ok (c, p') =>
          parseSelectorLoop fuel (parts ++ [.combinator .child, .compound c]) p'
        | .error e => .error e
      else if t.token = Token.ident || t.token = Token.hash || t.token = Token.dot ||
          t.token = Token.star || t.token = Token.pseudoClass then
        match parseCompoundSelector p with
        | .ok (c, p') =>
          parseSelectorLoop fuel (parts ++ [.combinator .descendant, .compound c]) p'
        | .error e => .error e
      else .ok (parts, p)
    | none => .ok (parts, p)

/-- Model of `Parser::parse_selector`. -/
def parseSelector (p : Parser) : Except ParseError (Selector × Parser) :=
  match parseCompoundSelector p with
  | .error e => .error e
  | .ok (c, p1) =>
    match parseSelectorLoop (p1.tokens.length + 1) [.compound c] p1 with
    | .ok (parts, p2) => .ok ({ parts := parts }, p2)
    | .error e => .error e

/-- The comma loop of `Parser::parse_selector_list`. -/
def parseSelectorListLoop : Nat → List Selector → Parser →
    Except ParseError (List Selector × Parser)
  | 0, _, _ => .error (.unexpectedEof "fuel exhausted")
  | fuel + 1, sels, p =>
    match p.peek with
    | some t =>
      if t.token = Token.comma then
        match parseSelector p.bump with
        | .ok (s, p') => parseSelectorListLoop fuel (sels ++ [s]) p'
        | .error e => .error e
      else .ok (sels, p)
    | none => .ok (sels, p)

/-- Model of `Parser::parse_selector_list`. -/
def parseSelectorList (p : Parser) : Except ParseError (List Selector × Parser) :=
  match parseSelector p with
  | .error e => .error e
  | .ok (s, p1) => parseSelectorListLoop (p1.tokens.length + 1) [s] p1

/-- Model of `parser.rs` `split_dimension`'s index search: the first
character index that is not a digit, not a period, and not a minus at
position 0. -/
def splitDimensionIdx : Nat → List Char → Option Nat
  | _, [] => none
  | i, c :: rest =>
    if !(isDigitChar c) && !(c = '.') && !(c = '-' && i = 0) then some i
    else splitDimensionIdx (i + 1) rest

/-- Model of `parser.rs` `split_dimension`. -/
def splitDimension (s : List Char) : Option (List Char × List Char) :=
  match splitDimensionIdx 0 s with
  | none => none
  | some unitStart =>
    if unitStart = 0 || s.length ≤ unitStart then none
    else some (s.take unitStart, s.drop unitStart)

/-- Numeric value of a digit string. -/
def digitsToNat (ds : List Char) : Nat :=
  ds.foldl (fun acc c => acc * 10 + (c.toNat - '0'.toNat)) 0

/-- Model of `str::parse::<f32>` restricted to the decimal shapes the lexer
can produce (`-?digits(.digits)?`), with the value represented exactly in
`ℚ` (no claim depends on f32 rounding). -/
def parseDecimal (cs : List Char) : Option ℚ :=
  let p := match cs with
    | '-' :: rest => (true, rest)
    | _ => (false, cs)
  let intDigits := p.2.takeWhile isDigitChar
  if intDigits.isEmpty then none
  else
    let sign : ℚ := if p.1 then -1 else 1
    let intVal : ℚ := (digitsToNat intDigits : ℚ)
    match p.2.drop intDigits.length with
    | [] => some (sign * intVal)
    | '.' :: fracPart =>
      if !fracPart.isEmpty && fracPart.all isDigitChar then
        some (sign * (intVal + (digitsToNat fracPart : ℚ) / ((10 : ℚ) ^ fracPart.length)))
      else none
    | _ => none

/-- Remove a single leading occurrence of `ch` (Rust's
`strip_prefix(ch).unwrap_or(text)`). -/
def stripLeading (ch : Char) (cs : List Char) : List Char :=
  match cs with
  | c :: rest => if c = ch then rest else cs
  | [] => []

/-- Model of `Parser::parse_declaration_value`. -/
def parseDeclarationValue (p : Parser) : Except ParseError (DeclarationValue × Parser) :=
  match p.advance with
  | none => .error (.unexpectedEof "expected declaration value")
  | some (tok, p') =>
    match tok.token with
    | .number =>
      match parseDecimal tok.text with
      | some n => .ok (.number n, p')
      | none => .error (.unexpectedToken tok.pos "invalid number")
    | .dimension =>
      match splitDimension tok.text with
      | none => .error (.unexpectedToken tok.pos "invalid dimension")
      | some parts =>
        match parseDecimal parts.1 with
        | some n => .ok (.dimension n (String.mk parts.2), p')
        | none => .error (.unexpectedToken tok.pos "invalid number in dimension")
    | .ident => .ok (.ident (String.mk tok.text), p')
    | .hexColor => .ok (.color (String.mk (stripLeading '#' tok.text)), p')
    | .stringLiteral => .ok (.str (String.mk ((tok.text.drop 1).dropLast)), p')
    | .stringLiteralSingle => .ok (.str (String.mk ((tok.text.drop 1).dropLast)), p')
    | .var => .ok (.var (String.mk (stripLeading '$' tok.text)), p')
    | _ => .error (.unexpectedToken tok.pos "unexpected token in declaration value")

/-- The value loop of `Parser::parse_declaration`: collect values until a
semicolon, closing brace, end of input, or an `!important` token (which
sets the flag and stops). -/
def parseDeclValuesLoop : Nat → List DeclarationValue → Parser →
    Except ParseError (List DeclarationValue × Bool × Parser)
  | 0, _, _ => .error (.unexpectedEof "fuel exhausted")
  | fuel + 1, values, p =>
    match p.peek with
    | none => .ok (values, false, p)
    | some t =>
      match t.token with
      | .semicolon => .ok (values, false, p)
      | .braceClose => .ok (values, false, p)
      | .important => .ok (values, true, p.bump)
      | _ =>
        match parseDeclarationValue p with
        | .ok (v, p') => parseDeclValuesLoop fuel (values ++ [v]) p'
        | .error e => .error e

/-- Model of `Parser::parse_declaration`. -/
def parseDeclaration (p : Parser) : Except ParseError (Declaration × Parser) :=
  match p.advance with
  | none => .error (.unexpectedEof "expected property name")
  | some (propTok, p1) =>
    if propTok.token ≠ Token.ident then
      .error (.unexpectedToken propTok.pos "expected property name")
    else
      match p1.expect Token.colon with
      | .error e => .error e
      | .ok (_, p2) =>
        match parseDeclValuesLoop (p2.tokens.length + 1) [] p2 with
        | .error e => .error e
        | .ok (values, imp, p3) =>
          let p4 := match p3.peek with
            | some t => if t.token = Token.semicolon then p3.bump else p3
            | none => p3
          .ok ({ property := String.mk propTok.text, values := values, important := imp }, p4)

/-- Model of `Parser::parse_declarations`: declarations until the closing
brace (or end of input). -/
def parseDeclarationsLoop : Nat → List Declaration → Parser →
    Except ParseError (List Declaration × Parser)
  | 0, _, _ => .error (.unexpectedEof "fuel exhausted")
  | fuel + 1, decls, p =>
    match p.peek with
    | some t =>
      if t.token ≠ Token.braceClose then
        match parseDeclaration p with
        | .ok (d, p') => parseDeclarationsLoop fuel (decls ++ [d]) p'
        | .error e => .error e
      else .ok (decls, p)
    | none => .ok (decls, p)

/-- Model of `Parser::parse_rule`. -/
def parseRule (p : Parser) : Except ParseError (RuleSet × Parser) :=
  match parseSelectorList p with
  | .error e => .error e
  | .ok (selectors, p1) =>
    match p1.expect Token.braceOpen with
    | .error e => .error e
    | .ok (_, p2) =>
      match parseDeclarationsLoop (p2.tokens.length + 1) [] p2 with
      | .error e => .error e
      | .ok (declarations, p3) =>
        match p3.expect Token.braceClose with
        | .error e => .error e
        | .ok (_, p4) => .ok ({ selectors := selectors, declarations := declarations }, p4)

/-- The rule loop of `parse_css`. -/
def parseCssLoop : Nat → List RuleSet → Parser → Except ParseError (List RuleSet)
  | 0, _, _ => .error (.unexpectedEof "fuel exhausted")
  | fuel + 1, rules, p =>
    if p.isEof then .ok rules
    else
      match parseRule p with
      | .ok (r, p') => parseCssLoop fuel (rules ++ [r]) p'
      | .error e => .error e

/-- Model of `parser.rs` `parse_css`: strip comments, tokenize with spans,
parse rules until end of input. -/
def parseCss (input : String) : Except ParseError StyleSheet :=
  let cleaned := stripComments input.toList
  let tokens := tokenizeWithSpans cleaned
  match parseCssLoop (tokens.length + 1) [] { tokens := tokens, cursor := 0 } with
  | .ok rules => .ok { rules := rules }
  | .error e => .error e

/-- The strict lexicographic order on the six specificity fields, spelled
out as nested arithmetic: `specLexGt s t` says `s`'s tuple is strictly
greater than `t`'s in the field order of the `Specificity` struct. -/
def specLexGt (s t : Specificity) : Prop :=
  t.is_user < s.is_user ∨ (s.is_user = t.is_user ∧
    (t.important < s.important ∨ (s.important = t.important ∧
      (t.id_count < s.id_count ∨ (s.id_count = t.id_count ∧
        (t.class_count < s.class_count ∨ (s.class_count = t.class_count ∧
          (t.type_count < s.type_count ∨ (s.type_count = t.type_count ∧
            t.source_order < s.source_order)))))))))

/-- A convenient test DOM: a single Button node with class `primary`. -/
def scenarioDom : Dom :=
  { nodes := [{ widget_type := "Button", id := none, classes := ["primary"],
                visible := true, focusable := false, disabled := false }],
    parents := [none] }

/-- Run the full text-to-styles pipeline on `scenarioDom`'s node 0 with a
non-default stylesheet, as the repository's own tests do. -/
def scenarioStyles (css : String) : Option Styles :=
  match parseCss css with
  | .ok sheet => some ((CompiledStylesheet.compile sheet false).computeStyles 0 scenarioDom)
  | .error _ => none

/-- Adjacent occurrence of the two-character sequence `x y` in a list. -/
def hasPair (x y : Char) : List Char → Bool
  | a :: b :: rest => (a = x && b = y) || hasPair x y (b :: rest)
  | _ => false

/-- Shorthand for the candidate entries `compute_styles` collects. -/
abbrev Cand := Specificity × Nat × List Declaration

/-- Concrete rule for exercising `compile`: selectors `Button, .primary`
with one `!important` declaration. -/
def c2Rule : RuleSet :=
  { selectors :=
      [{ parts := [SelectorPart.compound { components := [.typeSel "Button"] }] },
       { parts := [SelectorPart.compound { components := [.classSel "primary"] }] }],
    declarations :=
      [{ property := "color", values := [.ident "red"], important := true }] }

/-- One-rule stylesheet wrapping `c2Rule`. -/
def c2Sheet : StyleSheet := { rules := [c2Rule] }

/-- The compiled form of the class-beats-type scenario stylesheet. -/
def c1Comp : CompiledStylesheet :=
  match parseCss "Button \x7b color: red; \x7d .primary \x7b color: blue; \x7d" with
  | .ok sheet => CompiledStylesheet.compile sheet false
  | .error _ => { rules := [] }

/-- The winning candidate of that scenario: the `.primary` rule. -/
def c1TopCand : Cand :=
  ({ is_user := 1, important := 0, id_count := 0, class_count := 1,
     type_count := 0, source_order := 1 }, 1,
   [{ property := "color", values := [.ident "blue"], important := false }])

-- ──────────────────────────────────────────────────────────────────────
-- Lemmas

theorem then_eq_gt (x y : Ordering) : (x.then y = .gt) ↔ (x = .gt ∨ (x = .eq ∧ y = .gt)) := by
  cases x <;> simp [Ordering.then]

theorem then_eq_lt (x y : Ordering) : (x.then y = .lt) ↔ (x = .lt ∨ (x = .eq ∧ y = .lt)) := by
  cases x <;> simp [Ordering.then]

theorem compareThen_eq_gt (a b : Nat) (r : Ordering) :
    ((compare a b).then r = .gt) ↔ (b < a ∨ (a = b ∧ r = .gt)) := by
  rw [then_eq_gt]
  rw [Nat.compare_eq_gt, Nat.compare_eq_eq]

theorem compareThen_eq_lt (a b : Nat) (r : Ordering) :
    ((compare a b).then r = .lt) ↔ (a < b ∨ (a = b ∧ r = .lt)) := by
  rw [then_eq_lt]
  rw [Nat.compare_eq_lt, Nat.compare_eq_eq]

theorem Specificity.cmp_eq_gt (s t : Specificity) :
    Specificity.cmp s t = .gt ↔ specLexGt s t := by
  unfold Specificity.cmp specLexGt
  rw [compareThen_eq_gt, compareThen_eq_gt, compareThen_eq_gt, compareThen_eq_gt,
    compareThen_eq_gt, Nat.compare_eq_gt]

theorem Specificity.cmp_eq_lt (s t : Specificity) :
    Specificity.cmp s t = .lt ↔ specLexGt t s := by
  unfold Specificity.cmp specLexGt
  rw [compareThen_eq_lt, compareThen_eq_lt, compareThen_eq_lt, compareThen_eq_lt,
    compareThen_eq_lt, Nat.compare_eq_lt]
  constructor
  · intro h
    omega
  · intro h
    omega

theorem specLexGt_trans {s t u : Specificity} (h1 : specLexGt s t) (h2 : specLexGt t u) :
    specLexGt s u := by
  unfold specLexGt at *
  omega

theorem specLexGt_asymm {s t : Specificity} (h1 : specLexGt s t) (h2 : specLexGt t s) : False := by
  unfold specLexGt at *
  omega

theorem specLexGt_trichotomy (s t : Specificity) :
    specLexGt s t ∨ specLexGt t s ∨ s = t := by
  have h : specLexGt s t ∨ specLexGt t s ∨
      (s.is_user = t.is_user ∧ s.important = t.important ∧ s.id_count = t.id_count ∧
       s.class_count = t.class_count ∧ s.type_count = t.type_count ∧
       s.source_order = t.source_order) := by
    unfold specLexGt
    omega
  rcases h with h | h | h
  · exact Or.inl h
  · exact Or.inr (Or.inl h)
  · refine Or.inr (Or.inr ?_)
    obtain ⟨h1, h2, h3, h4, h5, h6⟩ := h
    cases s
    cases t
    simp_all

theorem Specificity.cmp_not_gt_iff (s t : Specificity) :
    Specificity.cmp s t ≠ .gt ↔ ¬ specLexGt s t :=
  not_congr (Specificity.cmp_eq_gt s t)

theorem then_eq_eq (x y : Ordering) : (x.then y = .eq) ↔ (x = .eq ∧ y = .eq) := by
  cases x <;> simp [Ordering.then]

theorem Specificity.cmp_eq_eq (s t : Specificity) : Specificity.cmp s t = .eq ↔ s = t := by
  unfold Specificity.cmp
  rw [then_eq_eq, then_eq_eq, then_eq_eq, then_eq_eq, then_eq_eq,
    Nat.compare_eq_eq, Nat.compare_eq_eq, Nat.compare_eq_eq, Nat.compare_eq_eq,
    Nat.compare_eq_eq, Nat.compare_eq_eq]
  cases s
  cases t
  simp only [Specificity.mk.injEq]

theorem candCmp_eq_gt (a b : Cand) :
    candCmp a b = .gt ↔ (specLexGt a.1 b.1 ∨ (a.1 = b.1 ∧ b.2.1 < a.2.1)) := by
  unfold candCmp
  rw [then_eq_gt, Specificity.cmp_eq_gt, Specificity.cmp_eq_eq, Nat.compare_eq_gt]

theorem candCmp_eq_lt (a b : Cand) : candCmp a b = .lt ↔ candCmp b a = .gt := by
  unfold candCmp
  rw [then_eq_lt, then_eq_gt, Specificity.cmp_eq_lt, Specificity.cmp_eq_eq,
    Specificity.cmp_eq_gt, Specificity.cmp_eq_eq, Nat.compare_eq_lt, Nat.compare_eq_gt]
  constructor
  · rintro (h | ⟨h1, h2⟩)
    · exact Or.inl h
    · exact Or.inr ⟨h1.symm, h2⟩
  · rintro (h | ⟨h1, h2⟩)
    · exact Or.inl h
    · exact Or.inr ⟨h1.symm, h2⟩

theorem candGt_asymm {a b : Cand} (h1 : candCmp a b = .gt) (h2 : candCmp b a = .gt) : False := by
  rw [candCmp_eq_gt] at h1 h2
  obtain ⟨⟨au, ai, ad, ac, aty, ao⟩, an, al⟩ := a
  obtain ⟨⟨bu, bi, bd, bc, bty, bo⟩, bn, bl⟩ := b
  simp only [specLexGt, Specificity.mk.injEq] at h1 h2
  omega

theorem candGt_cotrans {a b c : Cand} (h : candCmp a c = .gt) :
    candCmp a b = .gt ∨ candCmp b c = .gt := by
  rw [candCmp_eq_gt] at h
  rw [candCmp_eq_gt, candCmp_eq_gt]
  obtain ⟨⟨au, ai, ad, ac, aty, ao⟩, an, al⟩ := a
  obtain ⟨⟨bu, bi, bd, bc, bty, bo⟩, bn, bl⟩ := b
  obtain ⟨⟨cu, ci, cd, cc, cty, co⟩, cn, cl⟩ := c
  simp only [specLexGt, Specificity.mk.injEq] at h ⊢
  omega

instance : IsTotal Cand candLe := by
  constructor
  intro a b
  by_cases h : candCmp a b = Ordering.gt
  · right
    intro h2
    exact candGt_asymm h h2
  · exact Or.inl h

instance : IsTrans Cand candLe := by
  constructor
  intro a b c hab hbc hac
  rcases candGt_cotrans hac with h | h
  · exact hab h
  · exact hbc h

theorem fromSelector_is_user (sel : Selector) (o : Nat) (d imp : Bool) :
    (Specificity.fromSelector sel o d imp).is_user = if d then 0 else 1 := by
  simp [Specificity.fromSelector]

theorem fromSelector_important (sel : Selector) (o : Nat) (d imp : Bool) :
    (Specificity.fromSelector sel o d imp).important = if imp then 1 else 0 := by
  simp [Specificity.fromSelector]

/-- C3: specificity comparison is the lexicographic order on the 6-tuple
`(is_user, important, id_count, class_count, type_count, source_order)`
(first conjunct: the Ordering.then chain of `Specificity::cmp` is exactly
the spelled-out nested strict lexicographic order), and consequently a
user-origin specificity (`is_default = false`, so `is_user = 1`) strictly
exceeds every default-origin specificity (`is_user = 0`), for all selectors,
importance flags, and source orders. -/
theorem c3_lexicographic_user_dominates :
    (∀ s t : Specificity, Specificity.cmp s t = .gt ↔ specLexGt s t) ∧
    (∀ (sel1 sel2 : Selector) (o1 o2 : Nat) (imp1 imp2 : Bool),
      Specificity.cmp (Specificity.fromSelector sel1 o1 false imp1)
        (Specificity.fromSelector sel2 o2 true imp2) = .gt) := by
  constructor
  · exact Specificity.cmp_eq_gt
  · intro sel1 sel2 o1 o2 imp1 imp2
    rw [Specificity.cmp_eq_gt]
    have h1 := fromSelector_is_user sel1 o1 false imp1
    have h2 := fromSelector_is_user sel2 o2 true imp2
    unfold specLexGt
    simp at h1 h2
    omega

theorem merge_color (x y : Styles) : (x.merge y).color = mergeOpt x.color y.color := rfl

theorem merge_background (x y : Styles) :
    (x.merge y).background = mergeOpt x.background y.background := rfl

theorem merge_display (x y : Styles) : (x.merge y).display = mergeOpt x.display y.display := rfl

theorem mergeOpt_some {α : Type} (base : Option α) (v : α) :
    mergeOpt base (some v) = some v := rfl

theorem mergeOpt_none {α : Type} (base : Option α) : mergeOpt base none = base := rfl

/-- Counterexample to C9 as stated: `A` sets `color` and `B` leaves every
field unset, so `A` and `B` disagree on the `color` field, yet the two
merges are equal (both are `A`). -/
theorem c9_merge_counterexample :
    (({ color := some "red" } : Styles) ≠ Styles.new) ∧
    (({ color := some "red" } : Styles).color ≠ Styles.new.color) ∧
    Styles.merge { color := some "red" } Styles.new =
      Styles.merge Styles.new { color := some "red" } := by
  refine ⟨by decide, by decide, by decide⟩

/-- C9 amended: `merge` is right-biased — through any field accessor `g`
that commutes with the field-wise merge (every actual field of `Styles`
does, see `merge_color` and friends), a field set in `B` takes `B`'s value
and a field unset in `B` keeps `A`'s value — and `merge A B ≠ merge B A`
whenever some field is set in both `A` and `B` with different values.
(Disagreements where only one side sets the field can leave the two merges
equal, which is what the counterexample exhibits.) -/
theorem c9_merge_right_biased :
    (∀ {β : Type} (g : Styles → Option β),
      (∀ X Y, g (X.merge Y) = mergeOpt (g X) (g Y)) →
      ∀ (A B : Styles) (v : β), g B = some v → g (A.merge B) = some v) ∧
    (∀ {β : Type} (g : Styles → Option β),
      (∀ X Y, g (X.merge Y) = mergeOpt (g X) (g Y)) →
      ∀ (A B : Styles), g B = none → g (A.merge B) = g A) ∧
    (∀ {β : Type} (g : Styles → Option β),
      (∀ X Y, g (X.merge Y) = mergeOpt (g X) (g Y)) →
      ∀ (A B : Styles) (v w : β), g A = some v → g B = some w → v ≠ w →
        A.merge B ≠ B.merge A) := by
  refine ⟨?_, ?_, ?_⟩
  · intro β g hg A B v hB
    rw [hg, hB, mergeOpt_some]
  · intro β g hg A B hB
    rw [hg, hB, mergeOpt_none]
  · intro β g hg A B v w hA hB hvw heq
    have h1 : g (A.merge B) = some w := by rw [hg, hB, mergeOpt_some]
    have h2 : g (B.merge A) = some v := by rw [hg, hA, mergeOpt_some]
    rw [heq, h2] at h1
    exact hvw (Option.some.injEq v w ▸ h1.symm ▸ rfl)

/-- Witness for the amended C9 at the `color` field with concrete records. -/
theorem c9_merge_right_biased_witness :
    Styles.merge { color := some "red" } { color := some "blue" } ≠
      Styles.merge { color := some "blue" } { color := some "red" } :=
  c9_merge_right_biased.2.2 (fun st => st.color) merge_color
    { color := some "red" } { color := some "blue" } "red" "blue" rfl rfl (by decide)

theorem eqIgnore_auto_iff (name : String) :
    eqIgnoreAsciiCase name "auto" = true ↔ name.toList.map asciiLower = "auto".toList := by
  unfold eqIgnoreAsciiCase
  rw [beq_iff_eq]
  have h : "auto".toList.map asciiLower = "auto".toList := by decide
  rw [h]

/-- Counterexample to C8 as stated: the claim says case variants such as
`AUTO` and `Auto` are InvalidValue errors, but `parse_scalar` compares with
`eq_ignore_ascii_case`, so both resolve to the Auto scalar. -/
theorem c8_auto_case_counterexample :
    parseScalar (.ident "AUTO") = .ok Scalar.auto ∧
    parseScalar (.ident "Auto") = .ok Scalar.auto :=
  ⟨rfl, rfl⟩

/-- C8 amended: the identifier `auto` is matched ASCII-case-insensitively
(an identifier resolves to the Auto scalar exactly when it lowercases to
`auto`), every other identifier is an InvalidValue error, bare numbers
resolve to Cells, and dimensions with unit fr/%/vw/vh resolve to the
corresponding unit while any other unit is an InvalidValue error. -/
theorem c8_scalar_resolution :
    (∀ name : String, parseScalar (.ident name) = .ok Scalar.auto ↔
      name.toList.map asciiLower = "auto".toList) ∧
    (∀ name : String, name.toList.map asciiLower ≠ "auto".toList →
      parseScalar (.ident name) =
        .error (.invalidValue "scalar" "expected number, dimension, or auto")) ∧
    (∀ n : ℚ, parseScalar (.number n) = .ok (Scalar.cells n)) ∧
    (∀ n : ℚ, parseScalar (.dimension n "fr") = .ok (Scalar.fr n)) ∧
    (∀ n : ℚ, parseScalar (.dimension n "%") = .ok (Scalar.percent n)) ∧
    (∀ n : ℚ, parseScalar (.dimension n "vw") = .ok (Scalar.vw n)) ∧
    (∀ n : ℚ, parseScalar (.dimension n "vh") = .ok (Scalar.vh n)) ∧
    (∀ (n : ℚ) (u : String), u ≠ "fr" → u ≠ "%" → u ≠ "vw" → u ≠ "vh" →
      parseScalar (.dimension n u) = .error (.invalidValue "scalar" "unknown unit")) := by
  refine ⟨?_, ?_, fun n => rfl, fun n => rfl, fun n => rfl, fun n => rfl, fun n => rfl, ?_⟩
  · intro name
    unfold parseScalar
    by_cases h : eqIgnoreAsciiCase name "auto" = true
    · simp only [h, if_true]
      rw [← eqIgnore_auto_iff]
      simp [h]
    · simp only [Bool.not_eq_true] at h
      simp only [h, Bool.false_eq_true, if_false]
      rw [← eqIgnore_auto_iff]
      simp [h]
  · intro name hname
    unfold parseScalar
    have h : eqIgnoreAsciiCase name "auto" ≠ true := fun hc =>
      hname ((eqIgnore_auto_iff name).mp hc)
    simp only [Bool.not_eq_true] at h
    simp [h]
  · intro n u h1 h2 h3 h4
    unfold parseScalar
    simp [h1, h2, h3, h4]

/-- Witness for the amended C8 at concrete inputs: `AUTO` is accepted as
Auto, and the identifier `blue` is rejected. -/
theorem c8_scalar_resolution_witness :
    parseScalar (.ident "AUTO") = .ok Scalar.auto ∧
    parseScalar (.ident "blue") =
      .error (.invalidValue "scalar" "expected number, dimension, or auto") ∧
    parseScalar (.dimension 10 "em") = .error (.invalidValue "scalar" "unknown unit") :=
  ⟨(c8_scalar_resolution.1 "AUTO").mpr (by decide),
   c8_scalar_resolution.2.1 "blue" (by decide),
   c8_scalar_resolution.2.2.2.2.2.2.2 10 "em" (by decide) (by decide) (by decide) (by decide)⟩

/-- C7: a compound selector containing a PseudoClass component matches no
node whatsoever, while a PseudoClass component still increments the
`class_count` accumulator of the specificity computation. -/
theorem c7_pseudo_class_unmatched_but_counted :
    (∀ (compound : CompoundSelector) (node : NodeData),
      (∃ name, SelectorComponent.pseudoClass name ∈ compound.components) →
      matchesCompound compound node = false) ∧
    (∀ (acc : Nat × Nat × Nat) (comps : List SelectorComponent) (name : String),
      (countComponents acc (comps ++ [.pseudoClass name])).2.1 =
        (countComponents acc comps).2.1 + 1) := by
  constructor
  · rintro compound node ⟨name, hmem⟩
    rw [Bool.eq_false_iff]
    intro hall
    unfold matchesCompound at hall
    rw [List.all_eq_true] at hall
    have h := hall _ hmem
    simp [matchesComponent] at h
  · intro acc comps name
    unfold countComponents
    rw [List.foldl_append]
    rfl

/-- Witness for C7: `Button:hover` does not match even a Button node. -/
theorem c7_pseudo_class_unmatched_witness :
    matchesCompound { components := [.typeSel "Button", .pseudoClass "hover"] }
      (NodeData.new "Button") = false :=
  c7_pseudo_class_unmatched_but_counted.1 _ _ ⟨"hover", by decide⟩

theorem matchesSelector_three (dom : Dom) (a b : CompoundSelector) (comb : Combinator)
    (id : Nat) :
    matchesSelector { parts := [.compound a, .combinator comb, .compound b] } id dom =
      (match dom.get id with
       | none => false
       | some node =>
         if matchesCompound b node then
           matchLoop dom [SelectorPart.compound a, .combinator comb, .compound b] 2 id
         else false) := rfl

theorem matchLoop_three_child (dom : Dom) (a b : CompoundSelector) (id : Nat) :
    matchLoop dom [SelectorPart.compound a, .combinator .child, .compound b] 2 id =
      (match dom.parent id with
       | none => false
       | some parentId =>
         match dom.get parentId with
         | none => false
         | some parentData => if matchesCompound a parentData then true else false) := rfl

theorem matchLoop_three_desc (dom : Dom) (a b : CompoundSelector) (id : Nat) :
    matchLoop dom [SelectorPart.compound a, .combinator .descendant, .compound b] 2 id =
      (match (dom.ancestors id).find? (fun ancestorId =>
          match dom.get ancestorId with
          | some ancestor => matchesCompound a ancestor
          | none => false) with
       | some _ => true
       | none => false) := rfl

/-- C6: in a Child-combinator selector `A > B` only the immediate parent is
tested against `A` — the selector matches a node exactly when the node
matches `B` and its immediate parent exists and matches `A` (first
conjunct); in particular, whenever the immediate parent fails `A` the whole
selector fails, regardless of any `A`-matching grandparent (second
conjunct).  A Descendant-combinator selector `A B` instead matches exactly
when some ancestor, from nearest to farthest, matches `A` (third
conjunct). -/
theorem c6_child_requires_immediate_parent :
    (∀ (dom : Dom) (a b : CompoundSelector) (id : Nat),
      matchesSelector { parts := [.compound a, .combinator .child, .compound b] } id dom
          = true ↔
        ((∃ nd, dom.get id = some nd ∧ matchesCompound b nd = true) ∧
         (∃ p pd, dom.parent id = some p ∧ dom.get p = some pd ∧
           matchesCompound a pd = true))) ∧
    (∀ (dom : Dom) (a b : CompoundSelector) (id p : Nat) (pd : NodeData),
      dom.parent id = some p → dom.get p = some pd → matchesCompound a pd = false →
      matchesSelector { parts := [.compound a, .combinator .child, .compound b] } id dom
        = false) ∧
    (∀ (dom : Dom) (a b : CompoundSelector) (id : Nat),
      matchesSelector { parts := [.compound a, .combinator .descendant, .compound b] } id dom
          = true ↔
        ((∃ nd, dom.get id = some nd ∧ matchesCompound b nd = true) ∧
         (∃ anc, anc ∈ dom.ancestors id ∧ ∃ ad, dom.get anc = some ad ∧
           matchesCompound a ad = true))) := by
  have hchild : ∀ (dom : Dom) (a b : CompoundSelector) (id : Nat),
      matchesSelector { parts := [.compound a, .combinator .child, .compound b] } id dom
          = true ↔
        ((∃ nd, dom.get id = some nd ∧ matchesCompound b nd = true) ∧
         (∃ p pd, dom.parent id = some p ∧ dom.get p = some pd ∧
           matchesCompound a pd = true)) := by
    intro dom a b id
    rw [matchesSelector_three, matchLoop_three_child]
    cases hget : dom.get id
    · simp
    · case some nd =>
      cases hbm : matchesCompound b nd
      · simp [hbm]
      · simp only [hbm, if_true]
        cases hpar : dom.parent id
        · simp
        · case some p =>
          cases hpget : dom.get p
          · simp [hpget]
          · case some pd =>
            cases ham : matchesCompound a pd
            · simp [hpget, ham]
            · simp [hpget, ham, hbm]
  refine ⟨hchild, ?_, ?_⟩
  · intro dom a b id p pd hpar hpget ham
    rw [Bool.eq_false_iff]
    intro htrue
    obtain ⟨-, p', pd', hpar', hpget', ham'⟩ := (hchild dom a b id).mp htrue
    rw [hpar] at hpar'
    obtain rfl := Option.some.inj hpar'
    rw [hpget] at hpget'
    obtain rfl := Option.some.inj hpget'
    rw [ham] at ham'
    exact Bool.false_ne_true ham'
  · intro dom a b id
    rw [matchesSelector_three, matchLoop_three_desc]
    have hp : ∀ x, ((match dom.get x with
        | some ancestor => matchesCompound a ancestor
        | none => false) = true) ↔
        (∃ ad, dom.get x = some ad ∧ matchesCompound a ad = true) := by
      intro x
      cases hx : dom.get x <;> simp
    cases hget : dom.get id
    · simp
    · case some nd =>
      cases hbm : matchesCompound b nd
      · simp [hbm]
      · simp only [hbm, if_true]
        cases hfind : (dom.ancestors id).find? (fun ancestorId =>
            match dom.get ancestorId with
            | some ancestor => matchesCompound a ancestor
            | none => false)
        · constructor
          · intro hfalse
            simp at hfalse
          · rintro ⟨-, anc, hmem, had⟩
            have had' : (fun ancestorId => match dom.get ancestorId with
                | some ancestor => matchesCompound a ancestor
                | none => false) anc = true := (hp anc).mpr had
            have hsome : ((dom.ancestors id).find? (fun ancestorId =>
                match dom.get ancestorId with
                | some ancestor => matchesCompound a ancestor
                | none => false)).isSome = true := List.find?_isSome.mpr ⟨anc, hmem, had'⟩
            rw [hfind] at hsome
            simp at hsome
        · case some anc =>
          have hpa := List.find?_some hfind
          have hmem2 := List.mem_of_find?_eq_some hfind
          constructor
          · intro _
            exact ⟨⟨nd, rfl, hbm⟩, anc, hmem2, (hp anc).mp hpa⟩
          · intro _
            rfl

/-- Witness for C6: in the tree Container → Panel → Button, the selector
`Container > Button` does not match the Button grandchild even though its
grandparent matches `Container`. -/
theorem c6_child_requires_immediate_parent_witness :
    matchesSelector
      { parts := [.compound { components := [.typeSel "Container"] },
                  .combinator .child,
                  .compound { components := [.typeSel "Button"] }] } 2
      { nodes := [NodeData.new "Container", NodeData.new "Panel", NodeData.new "Button"],
        parents := [none, some 0, some 1] } = false :=
  c6_child_requires_immediate_parent.2.1 _ _ _ 2 1 (NodeData.new "Panel")
    rfl rfl (by decide)

theorem stripCommentsAux_nil (fuel : Nat) : stripCommentsAux fuel [] = [] := by
  cases fuel <;> rfl

theorem dropToCommentEnd_length_le (l : List Char) :
    (dropToCommentEnd l).length ≤ l.length := by
  induction l with
  | nil => simp [dropToCommentEnd]
  | cons c rest ih =>
    cases rest with
    | nil => simp [dropToCommentEnd]
    | cons d rest' =>
      rw [dropToCommentEnd]
      split
      · simp only [List.length_cons]
        omega
      · calc (dropToCommentEnd (d :: rest')).length ≤ (d :: rest').length := ih
          _ ≤ (c :: d :: rest').length := by simp

theorem stripCommentsAux_congr (fuel : Nat) : ∀ (fuel' : Nat) (cs : List Char),
    cs.length ≤ fuel → cs.length ≤ fuel' →
    stripCommentsAux fuel cs = stripCommentsAux fuel' cs := by
  induction fuel with
  | zero =>
    intro fuel' cs h _
    rw [List.length_eq_zero.mp (Nat.le_zero.mp h)]
    rw [stripCommentsAux_nil, stripCommentsAux_nil]
  | succ fuel ih =>
    intro fuel' cs h h'
    cases cs with
    | nil => rw [stripCommentsAux_nil, stripCommentsAux_nil]
    | cons b1 tail =>
      cases tail with
      | nil =>
        cases fuel' with
        | zero => simp at h'
        | succ fuel'' => rfl
      | cons b2 rest =>
        cases fuel' with
        | zero => simp at h'
        | succ fuel'' =>
          rw [stripCommentsAux, stripCommentsAux]
          simp only [List.length_cons] at h h'
          split
          · have hd := dropToCommentEnd_length_le rest
            rw [ih fuel'' (dropToCommentEnd rest) (by omega) (by omega)]
          · rw [ih fuel'' (b2 :: rest) (by simp; omega) (by simp; omega)]

theorem stripComments_nil : stripComments [] = [] := rfl

theorem stripComments_single (b : Char) : stripComments [b] = [b] := rfl

theorem stripComments_cons₂ (b1 b2 : Char) (rest : List Char) :
    stripComments (b1 :: b2 :: rest) =
      if b1 = '/' ∧ b2 = '*' then ' ' :: stripComments (dropToCommentEnd rest)
      else b1 :: stripComments (b2 :: rest) := by
  unfold stripComments
  rw [show (b1 :: b2 :: rest).length = rest.length + 1 + 1 by simp,
    stripCommentsAux]
  split
  · rw [stripCommentsAux_congr (rest.length + 1) (dropToCommentEnd rest).length
      (dropToCommentEnd rest) (by have := dropToCommentEnd_length_le rest; omega) le_rfl]
  · rw [stripCommentsAux_congr (rest.length + 1) (b2 :: rest).length (b2 :: rest)
      (by simp) le_rfl]

theorem hasPair_cons₂ (x y a b : Char) (rest : List Char) :
    hasPair x y (a :: b :: rest) =
      ((decide (a = x) && decide (b = y)) || hasPair x y (b :: rest)) := rfl

theorem hasPair_false_split {x y a b : Char} {rest : List Char}
    (h : hasPair x y (a :: b :: rest) = false) :
    ¬(a = x ∧ b = y) ∧ hasPair x y (b :: rest) = false := by
  rw [hasPair_cons₂] at h
  rw [Bool.or_eq_false_iff] at h
  obtain ⟨h1, h2⟩ := h
  refine ⟨?_, h2⟩
  rintro ⟨rfl, rfl⟩
  simp at h1

theorem stripComments_no_open : ∀ s : List Char,
    hasPair '/' '*' s = false → stripComments s = s := by
  intro s
  induction s with
  | nil => intro _; exact stripComments_nil
  | cons c rest ih =>
    intro h
    cases rest with
    | nil => exact stripComments_single c
    | cons d rest' =>
      obtain ⟨hcond, h2⟩ := hasPair_false_split h
      rw [stripComments_cons₂, if_neg hcond, ih h2]

theorem dropToCommentEnd_splice : ∀ (body rest : List Char),
    hasPair '*' '/' body = false →
    dropToCommentEnd (body ++ '*' :: '/' :: rest) = rest := by
  intro body
  induction body with
  | nil =>
    intro rest _
    rw [List.nil_append, dropToCommentEnd, if_pos ⟨rfl, rfl⟩]
  | cons c body' ih =>
    intro rest h
    cases body' with
    | nil =>
      show dropToCommentEnd (c :: '*' :: '/' :: rest) = rest
      rw [dropToCommentEnd]
      rw [if_neg (by rintro ⟨-, h2⟩; exact absurd h2 (by decide))]
      rw [dropToCommentEnd, if_pos ⟨rfl, rfl⟩]
    | cons d body'' =>
      obtain ⟨hcond, h2⟩ := hasPair_false_split h
      show dropToCommentEnd (c :: d :: (body'' ++ '*' :: '/' :: rest)) = rest
      rw [dropToCommentEnd, if_neg hcond]
      exact ih rest h2

theorem dropToCommentEnd_no_close : ∀ body : List Char,
    hasPair '*' '/' body = false → dropToCommentEnd body = [] := by
  intro body
  induction body with
  | nil => intro _; rfl
  | cons c body' ih =>
    intro h
    cases body' with
    | nil => rfl
    | cons d body'' =>
      obtain ⟨hcond, h2⟩ := hasPair_false_split h
      rw [dropToCommentEnd, if_neg hcond]
      exact ih h2

theorem stripComments_prepend : ∀ (pre : List Char) (t' : List Char),
    hasPair '/' '*' pre = false →
    stripComments (pre ++ '/' :: '*' :: t') = pre ++ stripComments ('/' :: '*' :: t') := by
  intro pre
  induction pre with
  | nil => intro t' _; rw [List.nil_append, List.nil_append]
  | cons p pre' ih =>
    intro t' h
    cases pre' with
    | nil =>
      show stripComments (p :: '/' :: '*' :: t') = p :: stripComments ('/' :: '*' :: t')
      rw [stripComments_cons₂]
      rw [if_neg (by rintro ⟨-, h2⟩; exact absurd h2 (by decide))]
    | cons q pre'' =>
      obtain ⟨hcond, h2⟩ := hasPair_false_split h
      show stripComments (p :: q :: (pre'' ++ '/' :: '*' :: t')) =
        p :: ((q :: pre'') ++ stripComments ('/' :: '*' :: t'))
      rw [stripComments_cons₂, if_neg hcond]
      show p :: stripComments ((q :: pre'') ++ '/' :: '*' :: t') = _
      rw [ih t' h2]

/-- C10: the comment-stripping pre-pass leaves comment-free text unchanged,
replaces each full `/* ... */` block comment (however long — `body` is an
arbitrary list with no `*/` inside) by exactly one space while leaving the
text before it unchanged and processing the text after it recursively, and
replaces an unterminated `/*` opener together with the whole remainder of
the input by one space. -/
theorem c10_strip_comments_one_space :
    (∀ s : List Char, hasPair '/' '*' s = false → stripComments s = s) ∧
    (∀ pre body rest : List Char,
      hasPair '/' '*' pre = false → hasPair '*' '/' body = false →
      stripComments (pre ++ '/' :: '*' :: (body ++ '*' :: '/' :: rest)) =
        pre ++ ' ' :: stripComments rest) ∧
    (∀ pre body : List Char,
      hasPair '/' '*' pre = false → hasPair '*' '/' body = false →
      stripComments (pre ++ '/' :: '*' :: body) = pre ++ [' ']) := by
  refine ⟨stripComments_no_open, ?_, ?_⟩
  · intro pre body rest h1 h2
    rw [stripComments_prepend pre _ h1]
    rw [stripComments_cons₂, if_pos ⟨rfl, rfl⟩]
    rw [dropToCommentEnd_splice body rest h2]
  · intro pre body h1 h2
    rw [stripComments_prepend pre _ h1]
    rw [stripComments_cons₂, if_pos ⟨rfl, rfl⟩]
    rw [dropToCommentEnd_no_close body h2, stripComments_nil]

/-- Witness for C10 on concrete text: stripping `a /* x */ b` yields
`a  b` (the comment collapses to the single replacement space between the
two pre-existing spaces), and an unterminated opener consumes the rest. -/
theorem c10_strip_comments_one_space_witness :
    stripComments ("a /" ++ "* x *" ++ "/ b").toList = "a ".toList ++ ' ' :: " b".toList ∧
    stripComments ("a /" ++ "* x").toList = "a ".toList ++ [' '] := by
  constructor
  · have h := c10_strip_comments_one_space.2.1 "a ".toList " x ".toList " b".toList
      (by decide) (by decide)
    rw [show ("a /" ++ "* x *" ++ "/ b").toList =
      "a ".toList ++ '/' :: '*' :: (" x ".toList ++ '*' :: '/' :: " b".toList) by decide] at *
    rw [h]
    rw [stripComments_no_open " b".toList (by decide)]
  · have h := c10_strip_comments_one_space.2.2 "a ".toList " x".toList (by decide) (by decide)
    rw [show ("a /" ++ "* x").toList =
      "a ".toList ++ '/' :: '*' :: " x".toList by decide] at *
    rw [h]

/-- C4: a declaration whose property resolution fails is dropped silently —
removing it from a rule's declaration list leaves the per-rule scratch
styles unchanged, so sibling declarations still take effect (first
conjunct); concretely, `Button { color: red; font-family: monospace;
background: blue; }` applied through the full pipeline to a matching
Button node sets both `color` and `background` even though `font-family`
is an unknown property (second conjunct).  `compute_styles` returns a plain
`Styles` record, so the error is never surfaced. -/
theorem c4_failing_declaration_dropped :
    (∀ (decls₁ decls₂ : List Declaration) (d : Declaration) (e : PropertyError),
      (∀ s : Styles, applyDeclaration s d.property d.values = .error e) →
      ruleStyles (decls₁ ++ d :: decls₂) = ruleStyles (decls₁ ++ decls₂)) ∧
    ((scenarioStyles
        "Button \x7b color: red; font-family: monospace; background: blue; \x7d").map
        (fun st => (st.color, st.background)) = some (some "red", some "blue")) := by
  constructor
  · intro decls₁ decls₂ d e h
    unfold ruleStyles
    rw [List.foldl_append, List.foldl_append]
    simp only [List.foldl_cons]
    rw [h (List.foldl (fun s d => match applyDeclaration s d.property d.values with
      | .ok s' => s'
      | .error _ => s) Styles.new decls₁)]
  · rfl

/-- Witness for C4: dropping the unknown `font-family` declaration from a
rule leaves the rule's scratch styles unchanged. -/
theorem c4_failing_declaration_dropped_witness :
    ruleStyles
      [{ property := "color", values := [.ident "red"], important := false },
       { property := "font-family", values := [.ident "monospace"], important := false },
       { property := "background", values := [.ident "blue"], important := false }] =
    ruleStyles
      [{ property := "color", values := [.ident "red"], important := false },
       { property := "background", values := [.ident "blue"], important := false }] :=
  c4_failing_declaration_dropped.1
    [{ property := "color", values := [.ident "red"], important := false }]
    [{ property := "background", values := [.ident "blue"], important := false }]
    { property := "font-family", values := [.ident "monospace"], important := false }
    (.unknownProperty "font-family") (fun _ => rfl)

/-- C5 evaluation: `Panel.item` parses to a single compound of two
components and `Panel .item` parses to Compound/Descendant/Compound as the
claim states (first two conjuncts); but on `Panel*` the selector loop of
`parse_selector` inserts a Descendant combinator even though the Star token
is byte-adjacent to the preceding Ident (last two conjuncts), because the
loop checks only the token kind and not adjacency — contradicting the
claim and the source's own comment that an adjacent token would already
have been consumed by `parse_compound_selector`. -/
theorem c5_adjacency_evaluation :
    ((parseSelector { tokens := tokenizeWithSpans "Panel.item".toList, cursor := 0 }).map
        Prod.fst =
      .ok { parts := [.compound { components := [.typeSel "Panel", .classSel "item"] }] }) ∧
    ((parseSelector { tokens := tokenizeWithSpans "Panel .item".toList, cursor := 0 }).map
        Prod.fst =
      .ok { parts := [.compound { components := [.typeSel "Panel"] },
                      .combinator .descendant,
                      .compound { components := [.classSel "item"] }] }) ∧
    ((parseSelector { tokens := tokenizeWithSpans "Panel*".toList, cursor := 0 }).map
        Prod.fst =
      .ok { parts := [.compound { components := [.typeSel "Panel"] },
                      .combinator .descendant,
                      .compound { components := [.universal] }] }) ∧
    ((tokenizeWithSpans "Panel*".toList).map (fun t => (t.byte_start, t.byte_end)) =
      [(0, 5), (5, 6)]) :=
  ⟨rfl, rfl, rfl, rfl⟩

theorem Specificity.cmp_refl (s : Specificity) : Specificity.cmp s s = .eq :=
  (Specificity.cmp_eq_eq s s).mpr rfl

theorem specMax_fold : ∀ (l : List Specificity) (a : Specificity),
    ∃ m, l.foldl specMaxStep (some a) = some m ∧ (m = a ∨ m ∈ l) ∧
      Specificity.cmp a m ≠ .gt ∧ ∀ x ∈ l, Specificity.cmp x m ≠ .gt := by
  intro l
  induction l with
  | nil =>
    intro a
    refine ⟨a, rfl, Or.inl rfl, ?_, by simp⟩
    rw [Specificity.cmp_refl]
    simp
  | cons s l' ih =>
    intro a
    rw [List.foldl_cons]
    by_cases hlt : Specificity.cmp s a = Ordering.lt
    · rw [show specMaxStep (some a) s = some a by simp [specMaxStep, hlt]]
      obtain ⟨m, hm, hmem, ham, hall⟩ := ih a
      refine ⟨m, hm, ?_, ham, ?_⟩
      · rcases hmem with h | h
        · exact Or.inl h
        · exact Or.inr (List.mem_cons_of_mem s h)
      · intro x hx
        rcases List.mem_cons.mp hx with rfl | hx'
        · -- x = s: s is strictly below a, and a is below m
          rw [Specificity.cmp_not_gt_iff] at ham ⊢
          have hgt : specLexGt a x := (Specificity.cmp_eq_lt x a).mp hlt
          intro hxm
          exact ham (specLexGt_trans hgt hxm)
        · exact hall x hx'
    · rw [show specMaxStep (some a) s = some s by simp [specMaxStep, hlt]]
      obtain ⟨m, hm, hmem, hsm, hall⟩ := ih s
      refine ⟨m, hm, ?_, ?_, ?_⟩
      · rcases hmem with h | h
        · exact Or.inr (h ▸ List.mem_cons_self s l')
        · exact Or.inr (List.mem_cons_of_mem s h)
      · -- a is below s (not strictly above), s is below m, so a is below m
        rw [Specificity.cmp_not_gt_iff] at hsm ⊢
        rw [Specificity.cmp_eq_lt] at hlt
        intro ham
        rcases specLexGt_trichotomy a s with h | h | h
        · exact hlt h
        · exact hsm (specLexGt_trans h ham)
        · exact hsm (h ▸ ham)
      · intro x hx
        rcases List.mem_cons.mp hx with rfl | hx'
        · exact hsm
        · exact hall x hx'

theorem specMax_spec (l : List Specificity) (h : l ≠ []) :
    ∃ m, specMax l = some m ∧ m ∈ l ∧ ∀ x ∈ l, Specificity.cmp x m ≠ .gt := by
  cases l with
  | nil => exact absurd rfl h
  | cons s l' =>
    obtain ⟨m, hm, hmem, ham, hall⟩ := specMax_fold l' s
    refine ⟨m, ?_, ?_, ?_⟩
    · unfold specMax
      rw [List.foldl_cons]
      exact hm
    · rcases hmem with rfl | h'
      · exact List.mem_cons_self m l'
      · exact List.mem_cons_of_mem s h'
    · intro x hx
      rcases List.mem_cons.mp hx with rfl | hx'
      · exact ham
      · exact hall x hx'

/-- C2: the specificity compile precomputes for a rule is the maximum over
its comma-separated selectors' specificities, all computed with the same
source-order index and origin flag — it is an upper bound of them under the
specificity order and is attained by one of them — and its `important`
field is 1 exactly when at least one declaration of the rule carries
`!important` (rule granularity: the flag is the disjunction over the whole
declaration block, shared by all selectors). -/
theorem c2_rule_specificity_is_selector_max :
    ∀ (sheet : StyleSheet) (is_default : Bool) (i : Nat) (rule : RuleSet)
      (cr : CompiledRule),
    sheet.rules.get? i = some rule →
    (CompiledStylesheet.compile sheet is_default).rules.get? i = some cr →
    rule.selectors ≠ [] →
    ((∀ sel ∈ rule.selectors,
        Specificity.cmp
          (Specificity.fromSelector sel i is_default
            (rule.declarations.any (fun d => d.important)))
          cr.specificity ≠ .gt) ∧
     (∃ sel ∈ rule.selectors,
        cr.specificity =
          Specificity.fromSelector sel i is_default
            (rule.declarations.any (fun d => d.important))) ∧
     (cr.specificity.important = 1 ↔ ∃ d ∈ rule.declarations, d.important = true)) := by
  intro sheet is_default i rule cr hrule hcr hne
  unfold CompiledStylesheet.compile at hcr
  simp only [List.get?_map, List.get?_enum, hrule, Option.map_some'] at hcr
  obtain rfl := (Option.some.inj hcr).symm
  have hspec : (CompiledRule.mk rule
      ((specMax (rule.selectors.map (fun sel =>
        Specificity.fromSelector sel i is_default
          (rule.declarations.any (fun d => d.important))))).getD Specificity.new) i).specificity
      = (specMax (rule.selectors.map (fun sel =>
        Specificity.fromSelector sel i is_default
          (rule.declarations.any (fun d => d.important))))).getD Specificity.new := rfl
  have hne' : rule.selectors.map (fun sel =>
      Specificity.fromSelector sel i is_default
        (rule.declarations.any (fun d => d.important))) ≠ [] := by
    intro hmap
    exact hne (List.map_eq_nil.mp hmap)
  obtain ⟨m, hm, hmem, hub⟩ := specMax_spec _ hne'
  have hmspec : ((CompiledRule.mk rule
      ((specMax (rule.selectors.map (fun sel =>
        Specificity.fromSelector sel i is_default
          (rule.declarations.any (fun d => d.important))))).getD Specificity.new) i)).specificity
      = m := by
    rw [hspec, hm]
    rfl
  rw [hmspec]
  obtain ⟨sel₀, hsel₀, heq₀⟩ := List.mem_map.mp hmem
  refine ⟨?_, ⟨sel₀, hsel₀, heq₀.symm⟩, ?_⟩
  · intro sel hsel
    exact hub _ (List.mem_map.mpr ⟨sel, hsel, rfl⟩)
  · rw [← heq₀, fromSelector_important]
    cases hany : rule.declarations.any (fun d => d.important)
    · simp only [Bool.false_eq_true, if_false]
      constructor
      · intro h01
        exact absurd h01 (by decide)
      · intro hex
        rw [← List.any_eq_true] at hex
        rw [hex] at hany
        cases hany
    · simp only [if_true]
      rw [← List.any_eq_true]
      simp [hany]

/-- Witness for C2 on `c2Sheet`: the compiled rule's specificity is the
`.primary` selector's (class beats type at equal origin/importance), and
its important field is 1 because one declaration carries `!important`. -/
theorem c2_rule_specificity_is_selector_max_witness :
    (∀ sel ∈ c2Rule.selectors,
      Specificity.cmp
        (Specificity.fromSelector sel 0 false
          (c2Rule.declarations.any (fun d => d.important)))
        (({ rule := c2Rule,
            specificity := { is_user := 1, important := 1, id_count := 0, class_count := 1,
                             type_count := 0, source_order := 0 },
            source_order := 0 } : CompiledRule)).specificity ≠ .gt) ∧
    (∃ sel ∈ c2Rule.selectors,
      (({ rule := c2Rule,
          specificity := { is_user := 1, important := 1, id_count := 0, class_count := 1,
                           type_count := 0, source_order := 0 },
          source_order := 0 } : CompiledRule)).specificity =
        Specificity.fromSelector sel 0 false
          (c2Rule.declarations.any (fun d => d.important))) ∧
    ((({ rule := c2Rule,
         specificity := { is_user := 1, important := 1, id_count := 0, class_count := 1,
                          type_count := 0, source_order := 0 },
         source_order := 0 } : CompiledRule)).specificity.important = 1 ↔
      ∃ d ∈ c2Rule.declarations, d.important = true) :=
  c2_rule_specificity_is_selector_max c2Sheet false 0 c2Rule
    { rule := c2Rule,
      specificity := { is_user := 1, important := 1, id_count := 0, class_count := 1,
                       type_count := 0, source_order := 0 },
      source_order := 0 }
    rfl (by decide) (by decide)

theorem mergeOpt_none_left {α : Type} (o : Option α) : mergeOpt none o = o := by
  cases o <;> rfl

theorem findSome?_singleton {α β : Type} (f : α → Option β) (c : α) :
    List.findSome? f [c] = f c := by
  rw [List.findSome?_cons]
  cases h : f c <;> simp [List.findSome?_nil]

theorem fold_merge_accessor {β : Type} (g : Styles → Option β)
    (hg : ∀ X Y : Styles, g (X.merge Y) = mergeOpt (g X) (g Y)) :
    ∀ (L : List Cand) (init : Styles),
    g (L.foldl (fun acc c => acc.merge (ruleStyles c.2.2)) init) =
      mergeOpt (g init) (L.reverse.findSome? (fun c => g (ruleStyles c.2.2))) := by
  intro L
  induction L with
  | nil =>
    intro init
    rw [List.foldl_nil, List.reverse_nil, List.findSome?_nil, mergeOpt_none]
  | cons c L' ih =>
    intro init
    rw [List.foldl_cons, ih, hg]
    rw [List.reverse_cons, List.findSome?_append, findSome?_singleton]
    cases hz : L'.reverse.findSome? (fun c => g (ruleStyles c.2.2)) <;>
      cases hy : g (ruleStyles c.2.2) <;> simp [mergeOpt, Option.or]

theorem findSome?_rightmost {β : Type} (f : Cand → Option β) :
    ∀ (M : List Cand) (c : Cand) (v : β),
    M.Pairwise (fun x y => candLe y x) → c ∈ M → f c = some v →
    (∀ x ∈ M, (f x).isSome = true → x ≠ c → candCmp x c = .lt) →
    M.findSome? f = some v := by
  intro M
  induction M with
  | nil =>
    intro c v _ hc
    exact absurd hc (List.not_mem_nil c)
  | cons m M' ih =>
    intro c v hpair hc hfc hmax
    rw [List.findSome?_cons]
    cases hfm : f m with
    | some b =>
      by_cases hmc : m = c
      · subst hmc
        rw [hfm] at hfc
        exact hfc
      · exfalso
        have hlt := hmax m (List.mem_cons_self m M') (by rw [hfm]; rfl) hmc
        have hcM' : c ∈ M' := by
          rcases List.mem_cons.mp hc with h | h
          · exact absurd h.symm hmc
          · exact h
        have hle : candLe c m := (List.pairwise_cons.mp hpair).1 c hcM'
        exact hle ((candCmp_eq_lt m c).mp hlt)
    | none =>
      have hmc : m ≠ c := by
        intro h
        rw [h, hfc] at hfm
        cases hfm
      have hcM' : c ∈ M' := by
        rcases List.mem_cons.mp hc with h | h
        · exact absurd h.symm hmc
        · exact h
      exact ih c v (List.pairwise_cons.mp hpair).2 hcM' hfc
        (fun x hx => hmax x (List.mem_cons_of_mem m hx))

/-- C1: `compute_styles` resolves each property to the value set by the
matching candidate with the greatest `(specificity, source_order)` pair
among those that set the property: for any field accessor `g` commuting
with the field-wise merge and unset on `Styles::new`, if candidate `c`
sets the field and every other candidate that sets it compares strictly
below `c`, the computed styles hold `c`'s value (third conjunct — the
candidates are sorted ascending and folded with a right-biased merge, so
the greatest setter lands last).  In particular, through the full pipeline,
`Button { color: red; } .primary { color: blue; }` on a Button node with
class `primary` resolves `color` to `"blue"` (class beats type), and
`Button { color: red; } Button { color: blue; }` resolves `color` to
`"blue"` (later source order wins at equal specificity). -/
theorem c1_cascade_highest_candidate_wins :
    ((scenarioStyles "Button \x7b color: red; \x7d .primary \x7b color: blue; \x7d").map
      (fun st => st.color) = some (some "blue")) ∧
    ((scenarioStyles "Button \x7b color: red; \x7d Button \x7b color: blue; \x7d").map
      (fun st => st.color) = some (some "blue")) ∧
    (∀ {β : Type} (g : Styles → Option β),
      (∀ X Y : Styles, g (X.merge Y) = mergeOpt (g X) (g Y)) →
      g Styles.new = none →
      ∀ (cs : CompiledStylesheet) (nodeId : Nat) (dom : Dom) (c : Cand) (v : β),
      c ∈ cs.candidates nodeId dom →
      g (ruleStyles c.2.2) = some v →
      (∀ x ∈ cs.candidates nodeId dom,
        (g (ruleStyles x.2.2)).isSome = true → x ≠ c → candCmp x c = .lt) →
      g (cs.computeStyles nodeId dom) = some v) := by
  refine ⟨rfl, rfl, ?_⟩
  intro β g hg hnew cs nodeId dom c v hc hv hmax
  unfold CompiledStylesheet.computeStyles
  rw [fold_merge_accessor g hg, hnew, mergeOpt_none_left]
  apply findSome?_rightmost _ _ c v
  · rw [List.pairwise_reverse]
    exact List.sorted_insertionSort candLe (cs.candidates nodeId dom)
  · rw [List.mem_reverse]
    exact ((List.perm_insertionSort candLe (cs.candidates nodeId dom)).mem_iff).mpr hc
  · exact hv
  · intro x hx hsome hne
    exact hmax x
      (((List.perm_insertionSort candLe (cs.candidates nodeId dom)).mem_iff).mp
        (List.mem_reverse.mp hx)) hsome hne

/-- Witness for C1's general conjunct at the color field of the
class-beats-type scenario: the `.primary` candidate is the greatest setter
of `color`, so the cascade resolves `color` to `"blue"`. -/
theorem c1_cascade_highest_candidate_wins_witness :
    (fun st => st.color) (c1Comp.computeStyles 0 scenarioDom) = some "blue" :=
  c1_cascade_highest_candidate_wins.2.2 (fun st => st.color) merge_color rfl
    c1Comp 0 scenarioDom c1TopCand "blue" (by decide) rfl (by decide)
